import Mathlib

/-!
Andromeda front panel controller: button matrix scanner and CAT parameter encoding.

A shallow embedding of `button.cpp` and `andromeda_front_panel_nano/cathandler.cpp`.

* `byte` values are natural numbers below 256; a store into a `byte` reduces modulo 256.
* `char` (signed, 8 bit on this target) values are integers in `-128 .. 127`; a store into
  a `char` wraps into that range (`wrapChar`).
* `int` values are integers. Every `int` computed from `byte` and `char` operands in the
  embedded functions stays far inside the 16 bit range, so no reduction is applied to them.
  Where the operands are macros defined elsewhere (`MakeSoftwareVersionMessage`), 16 bit
  `int` and 32 bit `long` results are reduced explicitly (`wrapInt`, `wrapLong`).
* The globals of each translation unit are collected in a record that is passed in and
  returned; calls into collaborators that are not part of the embedded files
  (`MakeCATMessageNumeric`, and `CATHandlePushbutton` when seen from the scanner) are
  recorded as lists of calls, in call order.
-/

namespace Andromeda

/-! ## Definitions: cathandler.cpp -/

/-- Command identifiers (`ECATCommands`) that the embedded handlers pass on. -/
inductive ECATCommands where
  | eZZZD
  | eZZZU
  | eZZZE
  | eZZZP
  | eZZZS
  | eZZZX
  | eZZZI
  deriving DecidableEq, Repr

/-- One call `MakeCATMessageNumeric(Cmd, Param)`. -/
structure CATMessage where
  Cmd : ECATCommands
  Param : Int
  deriving DecidableEq, Repr

/-- The mode globals `DiversityActive`, `ShiftActive` and `RitXitActive`. -/
structure ModeFlags where
  DiversityActive : Bool
  ShiftActive : Bool
  RitXitActive : Int
  deriving DecidableEq, Repr

/-- The initialisers of the three mode globals. -/
def ModeFlags.initial : ModeFlags :=
  { DiversityActive := false, ShiftActive := false, RitXitActive := 0 }

/-- Storing an `int` into a signed 8 bit `char`: reduction into `-128 .. 127`. -/
def wrapChar (x : Int) : Int := (x + 128) % 256 - 128

/-- The first `if` chain of `CATHandleEncoder` (cathandler.cpp lines 70-78): the value of
the local `Encoder` that the parameter is computed from. `!RitXitActive` holds exactly
when the `int` is zero. -/
def EncoderRemap (m : ModeFlags) (Encoder : Nat) : Nat :=
  if Encoder = 6 ∧ m.DiversityActive = false then 13
  else if Encoder = 7 ∧ m.DiversityActive = false then 14
  else if Encoder = 8 ∧ m.RitXitActive = 0 then 15
  else if Encoder = 9 ∧ m.RitXitActive = 0 then 16
  else Encoder

/-- `CATHandleEncoder(Encoder, Clicks)`: the list of `MakeCATMessageNumeric` calls made.
The function writes no global. `Clicks = -Clicks` stores the `int` negation back into the
`char`. -/
def CATHandleEncoder (m : ModeFlags) (Encoder : Nat) (Clicks : Int) : List CATMessage :=
  let Encoder := EncoderRemap m Encoder
  if Clicks > 0 then
    let Clicks := if Clicks > 9 then 9 else Clicks
    let Param : Int := ((Encoder : Int) + 1) * 10
    let Param := Param + Clicks
    [{ Cmd := .eZZZE, Param := Param }]
  else if Clicks < 0 then
    let Clicks := wrapChar (-Clicks)
    let Clicks := if Clicks > 9 then 9 else Clicks
    let Param : Int := ((Encoder : Int) + 51) * 10
    let Param := Param + Clicks
    [{ Cmd := .eZZZE, Param := Param }]
  else
    []

/-- `CATHandlePushbutton(Button, IsPressed, IsLongPressed)`: the mode globals after the
call and the list of `MakeCATMessageNumeric` calls made. `%` on `int` truncates towards
zero (`Int.tmod`). -/
def CATHandlePushbutton (m : ModeFlags) (Button : Nat) (IsPressed IsLongPressed : Bool) :
    ModeFlags × List CATMessage :=
  let Button := if m.ShiftActive = true ∧ (Button > 20 ∧ Button < 29) then Button - 8 else Button
  let Param : Int := (Button : Int) * 10
  if IsLongPressed = true then
    (m, [{ Cmd := .eZZZP, Param := Param + 2 }])
  else if IsPressed = true then
    let m1 : ModeFlags :=
      if Button = 7 then { m with DiversityActive := !m.DiversityActive }
      else if Button = 42 then { m with RitXitActive := Int.tmod (m.RitXitActive + 1) 3 }
      else if Button = 29 then { m with ShiftActive := !m.ShiftActive }
      else m
    (m1, [{ Cmd := .eZZZP, Param := Param + 1 }])
  else if Button ≠ 29 then
    ({ m with ShiftActive := false }, [{ Cmd := .eZZZP, Param := Param }])
  else
    (m, [{ Cmd := .eZZZP, Param := Param }])

/-! ## Definitions: button.cpp -/

/-- States of the matrix scan sequencer. -/
inductive EScanStates where
  | eIdle
  | eWaitPressed
  | eButtonPressed
  | eWaitReleased
  | eMultiPressed
  | eWaitMultiReleased
  deriving DecidableEq, Repr

def VNUMROWS : Nat := 8

def VNUMCOLS : Nat := 5

def VDEBOUNCETICKS : Nat := 10

def VLONGPRESSTHRESHOLD : Nat := 1000

/-- The scanner globals of button.cpp. -/
structure Scanner where
  GScanState : EScanStates
  GScanColumn : Nat
  GFoundRow : Nat
  GDebounceTickCounter : Nat
  GLongPressCounter : Nat
  deriving DecidableEq, Repr

/-- One call `CATHandlePushbutton(Button, IsPressed, IsLongPressed)` made by the scanner. -/
structure PushbuttonCall where
  Button : Nat
  IsPressed : Bool
  IsLongPressed : Bool
  deriving DecidableEq, Repr

/-- One pass of the body of the `for` loop of `AnalyseRowInput`, on the pair
`(Result, RawInput)`. -/
def AnalyseRowStep (acc : Nat × Nat) (Cntr : Nat) : Nat × Nat :=
  let Result :=
    if acc.2 &&& 1 = 0 then
      (if acc.1 = 0 then Cntr + 1 else 0xFF)
    else acc.1
  (Result, acc.2 >>> 1)

/-- `AnalyseRowInput(RawInput)`: `Cntr` runs over `0 .. VNUMROWS-1`. -/
def AnalyseRowInput (RawInput : Nat) : Nat :=
  ((List.range VNUMROWS).foldl AnalyseRowStep (0, RawInput)).1

/-- The scanner globals at power-on (zero-initialised statics). -/
def Scanner.powerOn : Scanner :=
  { GScanState := .eIdle, GScanColumn := 0, GFoundRow := 0,
    GDebounceTickCounter := 0, GLongPressCounter := 0 }

/-- `GButtonInitialise()`: the writes to the scanner globals (`GLongPressCounter` is not
written). -/
def GButtonInitialise (s : Scanner) : Scanner :=
  { s with GScanState := .eIdle, GScanColumn := 0, GFoundRow := 0, GDebounceTickCounter := 0 }

/-- The table `ReportCodeLookup`, scan code `0 .. 39`. -/
def ReportCodeLookup : List Nat :=
  [21, 22, 23, 24, 25, 26, 27, 28, 11, 3,
   1, 50, 49, 48, 47, 46, 40, 37, 34, 31,
   39, 36, 33, 30, 45, 44, 43, 42, 41, 38,
   35, 32, 0, 0, 0, 0, 29, 9, 7, 5]

/-- `GetScanCode()`: the `int` expression `(GScanColumn << 3) + GFoundRow - 1` stored into
a `byte`. -/
def GetScanCode (s : Scanner) : Nat :=
  if s.GFoundRow = 0xFF then 0xFF
  else ((((s.GScanColumn <<< 3) + s.GFoundRow : Nat) : Int) - 1) % 256 |>.toNat

/-- `ButtonPressed(IsLongPress)`: the `CATHandlePushbutton` calls made. A table index
outside the 40 entries reads as 0 here. -/
def ButtonPressed (s : Scanner) (IsLongPress : Bool) : List PushbuttonCall :=
  let ScanCode := GetScanCode s
  if ScanCode ≠ 0xFF then
    let ButtonCode := ReportCodeLookup.getD ScanCode 0
    if ButtonCode ≠ 0 then
      [{ Button := ButtonCode, IsPressed := true, IsLongPressed := IsLongPress }]
    else []
  else []

/-- `ButtonReleased()`: the `CATHandlePushbutton` calls made. -/
def ButtonReleased (s : Scanner) : List PushbuttonCall :=
  let ScanCode := GetScanCode s
  if ScanCode ≠ 0xFF then
    let ButtonCode := ReportCodeLookup.getD ScanCode 0
    if ButtonCode ≠ 0 then
      [{ Button := ButtonCode, IsPressed := false, IsLongPressed := false }]
    else []
  else []

/-- `ButtonTick()`: `RawRow` is the byte returned by `ReadPushbuttonRowMCP()`; the result is
the scanner globals after the tick and the `CATHandlePushbutton` calls made during it. -/
def ButtonTick (s : Scanner) (RawRow : Nat) : Scanner × List PushbuttonCall :=
  let Row := AnalyseRowInput RawRow
  if s.GDebounceTickCounter ≠ 0 then
    ({ s with GDebounceTickCounter := s.GDebounceTickCounter - 1 }, [])
  else
    match s.GScanState with
    | .eIdle =>
      if Row = 0 then
        let c := (s.GScanColumn + 1) % 256
        ({ s with GScanColumn := if c ≥ VNUMCOLS then 0 else c }, [])
      else if Row = 0xFF then
        ({ s with GScanState := .eMultiPressed, GDebounceTickCounter := VDEBOUNCETICKS }, [])
      else
        ({ s with GScanState := .eWaitPressed, GFoundRow := Row,
                  GDebounceTickCounter := VDEBOUNCETICKS }, [])
    | .eWaitPressed =>
      if Row = s.GFoundRow then
        let s1 := { s with GScanState := .eButtonPressed }
        ({ s1 with GLongPressCounter := VLONGPRESSTHRESHOLD }, ButtonPressed s1 false)
      else
        ({ s with GScanState := .eMultiPressed, GDebounceTickCounter := VDEBOUNCETICKS }, [])
    | .eButtonPressed =>
      if Row = 0 then
        ({ s with GScanState := .eWaitReleased, GDebounceTickCounter := VDEBOUNCETICKS }, [])
      else if Row ≠ s.GFoundRow then
        let s1 := { s with GScanState := .eMultiPressed, GDebounceTickCounter := VDEBOUNCETICKS }
        (s1, ButtonReleased s1)
      else if s.GLongPressCounter ≠ 0 then
        let s1 := { s with GLongPressCounter := s.GLongPressCounter - 1 }
        if s1.GLongPressCounter = 0 then (s1, ButtonPressed s1 true) else (s1, [])
      else
        (s, [])
    | .eWaitReleased =>
      if Row = 0 then
        let s1 := { s with GScanState := .eIdle, GDebounceTickCounter := VDEBOUNCETICKS }
        (s1, ButtonReleased s1)
      else if Row ≠ s.GFoundRow then
        ({ s with GScanState := .eMultiPressed, GDebounceTickCounter := VDEBOUNCETICKS }, [])
      else
        (s, [])
    | .eMultiPressed =>
      if Row = 0 then
        ({ s with GScanState := .eWaitMultiReleased, GDebounceTickCounter := VDEBOUNCETICKS }, [])
      else
        (s, [])
    | .eWaitMultiReleased =>
      if Row = 0 then
        ({ s with GScanState := .eIdle, GDebounceTickCounter := VDEBOUNCETICKS }, [])
      else
        ({ s with GScanState := .eMultiPressed, GDebounceTickCounter := VDEBOUNCETICKS }, [])

/-- The scanner globals after one `ButtonTick` per reading of `rows`, oldest first. -/
def runTicks (s : Scanner) (rows : List Nat) : Scanner :=
  rows.foldl (fun st RawRow => (ButtonTick st RawRow).1) s

/-- The `CATHandlePushbutton` calls made by the tick that reads `RawRow` after the readings
`rows` have been processed. -/
def callsAfter (s : Scanner) (rows : List Nat) (RawRow : Nat) : List PushbuttonCall :=
  (ButtonTick (runTicks s rows) RawRow).2

/-- The bit positions `0 .. 7` of a row mask that are cleared (rows asserted, active low). -/
def clearedBits (m : Nat) : List Nat :=
  (List.range 8).filter (fun k => !m.testBit k)

/-- The classification of an active-low row mask in the words of the specification:
`0` when no bit is cleared, `k+1` when bit `k` is the only cleared bit, `0xFF` when two or
more bits are cleared. -/
def specRowClass (m : Nat) : Nat :=
  match clearedBits m with
  | [] => 0
  | [k] => k + 1
  | _ => 0xFF

/-- The scanner globals `t` ticks into a hold of the single row `r` that starts at `s`
(Idle, no delay armed): detection at tick 0, the debounce delay, then the pressed state
with the long-press counter running down. -/
def heldState (s : Scanner) (r t : Nat) : Scanner :=
  if t = 0 then s
  else if t ≤ VDEBOUNCETICKS + 1 then
    { s with GScanState := .eWaitPressed, GFoundRow := r,
             GDebounceTickCounter := VDEBOUNCETICKS + 1 - t }
  else
    { s with GScanState := .eButtonPressed, GFoundRow := r, GDebounceTickCounter := 0,
             GLongPressCounter := VDEBOUNCETICKS + 2 + VLONGPRESSTHRESHOLD - t }

/-- What the scanner globals `st`, reached from `s0` by the readings `hist` (oldest first),
record about those readings.
* In `eWaitPressed` the remembered row is a single row, read by a tick that was evaluated
  in `eIdle`; the readings after it are the delay ticks counted so far.
* In `eButtonPressed` no delay is armed, and while the long-press counter runs the last
  `VLONGPRESSTHRESHOLD + 1 - GLongPressCounter` readings all were the remembered row.
* In `eWaitMultiReleased` a tick evaluated in `eMultiPressed` read no row; the readings
  after it are the delay ticks counted so far. -/
def ScanInv (s0 : Scanner) (hist : List Nat) (st : Scanner) : Prop :=
  (st.GScanState = .eWaitPressed →
      st.GFoundRow ≠ 0 ∧ st.GFoundRow ≠ 0xFF ∧
      ∃ pre x0 mid, hist = pre ++ x0 :: mid
        ∧ mid.length + st.GDebounceTickCounter = VDEBOUNCETICKS
        ∧ AnalyseRowInput x0 = st.GFoundRow
        ∧ (runTicks s0 pre).GScanState = .eIdle
        ∧ (runTicks s0 pre).GDebounceTickCounter = 0)
  ∧ (st.GScanState = .eButtonPressed →
      st.GDebounceTickCounter = 0 ∧ st.GFoundRow ≠ 0 ∧ st.GFoundRow ≠ 0xFF ∧
      (st.GLongPressCounter ≠ 0 →
        ∃ pre held, hist = pre ++ held
          ∧ held.length + st.GLongPressCounter = VLONGPRESSTHRESHOLD + 1
          ∧ ∀ y ∈ held, AnalyseRowInput y = st.GFoundRow))
  ∧ (st.GScanState = .eWaitMultiReleased →
      ∃ pre n1 mid, hist = pre ++ n1 :: mid
        ∧ mid.length + st.GDebounceTickCounter = VDEBOUNCETICKS
        ∧ AnalyseRowInput n1 = 0
        ∧ (runTicks s0 pre).GScanState = .eMultiPressed
        ∧ (runTicks s0 pre).GDebounceTickCounter = 0)

/-! ## Definitions: cathandler.cpp, clipping and command dispatch -/

/-- The two fields of a command descriptor (`SCATCommands`) that `ClipParameter` reads. -/
structure SCATCommands where
  MinParamValue : Int
  MaxParamValue : Int
  deriving DecidableEq, Repr

/-- `ClipParameter(Param, Cmd)`. The descriptor table `GCATCommands` is declared outside the
embedded files and is passed in; `GCATCommands + (int)Cmd` is the entry of `Cmd`. -/
def ClipParameter (GCATCommands : ECATCommands → SCATCommands) (Param : Int)
    (Cmd : ECATCommands) : Int :=
  let StructPtr := GCATCommands Cmd
  if Param > StructPtr.MaxParamValue then StructPtr.MaxParamValue
  else if Param < StructPtr.MinParamValue then StructPtr.MinParamValue
  else Param

/-- Storing into a 16 bit `int`: reduction into `-32768 .. 32767`. -/
def wrapInt (x : Int) : Int := (x + 32768) % 65536 - 32768

/-- Storing into a 32 bit `long`: reduction into `-2147483648 .. 2147483647`. -/
def wrapLong (x : Int) : Int := (x + 2147483648) % 4294967296 - 2147483648

/-- `MakeSoftwareVersionMessage()`: the `MakeCATMessageNumeric` call made. The macros
`PRODUCTID`, `HWVERSION` and `SWVERSION` are defined outside the embedded files and are
passed in as `int` constants. `PRODUCTID * 100000` is a `long` product (the literal does not
fit an `int`), `HWVERSION*1000` is an `int` product, and the sums are `long`. -/
def MakeSoftwareVersionMessage (PRODUCTID HWVERSION SWVERSION : Int) : List CATMessage :=
  let Version : Int :=
    wrapLong (wrapLong (wrapLong (PRODUCTID * 100000) + wrapInt (HWVERSION * 1000)) + SWVERSION)
  [{ Cmd := .eZZZS, Param := Version }]

/-- The encoder divisor globals `GEncoderDivisor` and `GVFOEncoderDivisor`. Their declaration
is outside the embedded files; the values are kept as integers. -/
structure EncoderSettings where
  GEncoderDivisor : Int
  GVFOEncoderDivisor : Int
  deriving DecidableEq, Repr

/-- `MakeEncoderIncrementMessage()`: the `MakeCATMessageNumeric` call made. -/
def MakeEncoderIncrementMessage (cfg : EncoderSettings) : List CATMessage :=
  let Result : Int := cfg.GVFOEncoderDivisor * 10 + cfg.GEncoderDivisor
  [{ Cmd := .eZZZX, Param := Result }]

/-- A call made by `HandleCATCommandNumParam` into a collaborator. `SetLED` takes a `byte`
LED number (led.h). -/
inductive CATEffect where
  | SetLED (LEDNumber : Nat) (State : Bool)
  | CopySettingsToEEprom
  | SetEncoderDivisors (EncoderDivisor : Int) (VFOEncoderDivisor : Int)
  deriving DecidableEq, Repr

/-- `HandleCATCommandNumParam(MatchedCAT, ParsedParam)`: the divisor globals after the call
and the collaborator calls made, in order. `/` and `%` on `int` truncate towards zero; the
`int` `Device` is converted to the `byte` parameter of `SetLED`, and `ParsedParam % 10` to
the `byte` local `Param`. -/
def HandleCATCommandNumParam (cfg : EncoderSettings) (MatchedCAT : ECATCommands)
    (ParsedParam : Int) : EncoderSettings × List CATEffect :=
  match MatchedCAT with
  | .eZZZI =>
    let State : Bool := if Int.tmod ParsedParam 10 ≠ 0 then true else false
    let Device : Int := Int.tdiv ParsedParam 10 - 1
    (cfg, [.SetLED (Device % 256).toNat State])
  | .eZZZX =>
    let Param : Int := (Int.tmod ParsedParam 10) % 256
    let Device : Int := Int.tdiv ParsedParam 10
    let cfg1 : EncoderSettings :=
      if Param = 0 then { cfg with GEncoderDivisor := 1 }
      else { cfg with GEncoderDivisor := Param }
    let cfg2 : EncoderSettings :=
      if Device = 0 then { cfg1 with GVFOEncoderDivisor := 1 }
      else { cfg1 with GVFOEncoderDivisor := Device }
    (cfg2, [.CopySettingsToEEprom,
            .SetEncoderDivisors cfg2.GEncoderDivisor cfg2.GVFOEncoderDivisor])
  | _ => (cfg, [])

/-- `HandleCATCommandNoParam(MatchedCAT)`: the `MakeCATMessageNumeric` calls made. -/
def HandleCATCommandNoParam (PRODUCTID HWVERSION SWVERSION : Int) (cfg : EncoderSettings)
    (MatchedCAT : ECATCommands) : List CATMessage :=
  match MatchedCAT with
  | .eZZZS => MakeSoftwareVersionMessage PRODUCTID HWVERSION SWVERSION
  | .eZZZX => MakeEncoderIncrementMessage cfg
  | _ => []

/-! ## Definitions: button.cpp, handler invocations and call traces -/

/-- The handler that `ButtonTick` invokes during a tick, if any, with the scanner globals at
the moment of the invocation: `some l` stands for `ButtonPressed(l)`, `none` for
`ButtonReleased()`. The branches are those of `ButtonTick`. -/
def ButtonTickHandler (s : Scanner) (RawRow : Nat) : Option (Scanner × Option Bool) :=
  let Row := AnalyseRowInput RawRow
  if s.GDebounceTickCounter ≠ 0 then none
  else
    match s.GScanState with
    | .eIdle => none
    | .eWaitPressed =>
      if Row = s.GFoundRow then
        some ({ s with GScanState := .eButtonPressed }, some false)
      else none
    | .eButtonPressed =>
      if Row = 0 then none
      else if Row ≠ s.GFoundRow then
        some ({ s with GScanState := .eMultiPressed, GDebounceTickCounter := VDEBOUNCETICKS },
              none)
      else if s.GLongPressCounter ≠ 0 then
        let s1 := { s with GLongPressCounter := s.GLongPressCounter - 1 }
        if s1.GLongPressCounter = 0 then some (s1, some true) else none
      else none
    | .eWaitReleased =>
      if Row = 0 then
        some ({ s with GScanState := .eIdle, GDebounceTickCounter := VDEBOUNCETICKS }, none)
      else none
    | .eMultiPressed => none
    | .eWaitMultiReleased => none

/-- All `CATHandlePushbutton` calls made while the readings `rows` are processed, in call
order. -/
def callTrace (s : Scanner) : List Nat → List PushbuttonCall
  | [] => []
  | RawRow :: rows => (ButtonTick s RawRow).2 ++ callTrace (ButtonTick s RawRow).1 rows

/-- What holds of the scan position in every state reached from `GButtonInitialise`: the
column is one of the `VNUMCOLS` columns, and while a single press is being followed
(`eWaitPressed`, `eButtonPressed`, `eWaitReleased`) the remembered row is one of the
`VNUMROWS` rows. -/
def PosInv (st : Scanner) : Prop :=
  st.GScanColumn < VNUMCOLS
    ∧ (st.GScanState = .eWaitPressed ∨ st.GScanState = .eButtonPressed
        ∨ st.GScanState = .eWaitReleased →
          1 ≤ st.GFoundRow ∧ st.GFoundRow ≤ VNUMROWS)

/-! ## Theorems: cathandler.cpp -/

/-- C5: `CATHandlePushbutton` makes exactly one `ZZZP` call whose parameter is `i*10 + d`,
with `i = b - 8` when `ShiftActive` held before the call and `20 < b < 29`, `i = b`
otherwise, and `d = 2` for a long press, else `1` for a press, else `0`; index 12 gives
121, 122 and 120. -/
theorem CATHandlePushbutton_param (m : ModeFlags) (b : Nat) (IsPressed IsLongPressed : Bool) :
    (CATHandlePushbutton m b IsPressed IsLongPressed).2 =
        [{ Cmd := .eZZZP,
           Param := ((if m.ShiftActive = true ∧ 20 < b ∧ b < 29 then b - 8 else b : Nat) : Int) * 10
                      + (if IsLongPressed = true then 2 else if IsPressed = true then 1 else 0) }]
      ∧ (CATHandlePushbutton m 12 true false).2 = [{ Cmd := .eZZZP, Param := 121 }]
      ∧ (CATHandlePushbutton m 12 true true).2 = [{ Cmd := .eZZZP, Param := 122 }]
      ∧ (CATHandlePushbutton m 12 false false).2 = [{ Cmd := .eZZZP, Param := 120 }] := by
  refine ⟨?_, ?_, ?_, ?_⟩
  · cases IsLongPressed <;> cases IsPressed <;> simp only [CATHandlePushbutton] <;>
      split_ifs <;> simp
  · simp [CATHandlePushbutton]
  · simp [CATHandlePushbutton]
  · simp [CATHandlePushbutton]

/-- The anticlockwise branch of `CATHandleEncoder` on the click counts whose negation fits
the `char`: one `ZZZE` call with parameter `(i+51)*10 + min(-c, 9)`. -/
theorem CATHandleEncoder_anticlockwise (m : ModeFlags) (e : Nat) (c : Int)
    (hneg : c < 0) (hlo : -127 ≤ c) :
    CATHandleEncoder m e c =
      [{ Cmd := .eZZZE, Param := ((EncoderRemap m e : Int) + 51) * 10 + min (-c) 9 }] := by
  have hw : wrapChar (-c) = -c := by
    unfold wrapChar
    omega
  have h0 : ¬ c > 0 := by omega
  simp only [CATHandleEncoder, h0, hneg, if_true, if_false, hw]
  by_cases h9 : -c > 9
  · have : min (-c) 9 = 9 := by omega
    simp [h9, this]
  · have : min (-c) 9 = -c := by omega
    simp [h9, this]

/-- The clockwise branch of `CATHandleEncoder`: one `ZZZE` call with parameter
`(i+1)*10 + min(c, 9)`. -/
theorem CATHandleEncoder_pos (m : ModeFlags) (e : Nat) (c : Int) (hpos : 0 < c) :
    CATHandleEncoder m e c =
      [{ Cmd := .eZZZE, Param := ((EncoderRemap m e : Int) + 1) * 10 + min c 9 }] := by
  have hgt : c > 0 := hpos
  simp only [CATHandleEncoder, hgt, if_true]
  by_cases h9 : c > 9
  · have : min c 9 = 9 := by omega
    simp [h9, this]
  · have : min c 9 = c := by omega
    simp [h9, this]

/-- C6: `CATHandleEncoder` makes no call when the click count is 0 and, when it is
positive, exactly one `ZZZE` call with parameter `(i+1)*10 + min(c,9)`, `i` being the
encoder index after the mode remap; index 3 with 5 clicks gives 45. -/
theorem CATHandleEncoder_clockwise (m : ModeFlags) (e : Nat) (c : Int) (hc : 0 ≤ c) :
    CATHandleEncoder m e c =
        (if c = 0 then []
         else [{ Cmd := .eZZZE, Param := ((EncoderRemap m e : Int) + 1) * 10 + min c 9 }])
      ∧ CATHandleEncoder m 3 5 = [{ Cmd := .eZZZE, Param := 45 }] := by
  refine ⟨?_, ?_⟩
  · by_cases h0 : c = 0
    · subst h0
      simp [CATHandleEncoder]
    · rw [if_neg h0]
      exact CATHandleEncoder_pos m e c (by omega)
  · simp [CATHandleEncoder, EncoderRemap]

/-- Witness for C6: encoder 6 with diversity inactive and 12 clicks. -/
theorem CATHandleEncoder_clockwise_witness :
    (0 : Int) ≤ 12 ∧
      CATHandleEncoder ModeFlags.initial 6 12 = [{ Cmd := .eZZZE, Param := 149 }] :=
  ⟨by decide, by
    have h := (CATHandleEncoder_clockwise ModeFlags.initial 6 12 (by decide)).1
    rw [h]
    decide⟩

/-- C7 at the failing input: with `Clicks = -128` the negation does not fit the `char`, the
clip at 9 is skipped and the `ZZZE` parameter for index 3 is `540 - 128 = 412`, not
`540 + min(128, 9) = 549`. -/
theorem CATHandleEncoder_anticlockwise_minus128 :
    CATHandleEncoder ModeFlags.initial 3 (-128) = [{ Cmd := .eZZZE, Param := 412 }]
      ∧ CATHandleEncoder ModeFlags.initial 3 (-128) ≠
          [{ Cmd := .eZZZE, Param := ((3 : Int) + 51) * 10 + min (-(-128)) 9 }] := by
  constructor <;> decide

/-- C8: the index `CATHandleEncoder` encodes is 13 for encoder 6 and 14 for encoder 7
exactly when `DiversityActive` is false, 15 for encoder 8 and 16 for encoder 9 exactly when
`RitXitActive` is 0, and the unchanged id in every other case; `ShiftActive` has no
influence on it. The emitted parameter is built from that index in both directions. -/
theorem CATHandleEncoder_remap (m : ModeFlags) (e : Nat) (c : Int) (s : Bool)
    (hc : c ≠ 0) (hlo : -127 ≤ c) :
    CATHandleEncoder m e c =
        [{ Cmd := .eZZZE,
           Param := ((EncoderRemap m e : Int) + (if 0 < c then 1 else 51)) * 10 + min |c| 9 }]
      ∧ (EncoderRemap m 6 = 13 ↔ m.DiversityActive = false)
      ∧ (EncoderRemap m 7 = 14 ↔ m.DiversityActive = false)
      ∧ (EncoderRemap m 8 = 15 ↔ m.RitXitActive = 0)
      ∧ (EncoderRemap m 9 = 16 ↔ m.RitXitActive = 0)
      ∧ (m.DiversityActive = true → EncoderRemap m 6 = 6 ∧ EncoderRemap m 7 = 7)
      ∧ (m.RitXitActive ≠ 0 → EncoderRemap m 8 = 8 ∧ EncoderRemap m 9 = 9)
      ∧ (e ≠ 6 → e ≠ 7 → e ≠ 8 → e ≠ 9 → EncoderRemap m e = e)
      ∧ EncoderRemap { m with ShiftActive := s } e = EncoderRemap m e
      ∧ CATHandleEncoder { m with ShiftActive := s } e c = CATHandleEncoder m e c := by
  refine ⟨?_, ?_, ?_, ?_, ?_, ?_, ?_, ?_, ?_, ?_⟩
  · rcases lt_or_gt_of_ne hc with hneg | hpos
    · have h1 : ¬ 0 < c := by omega
      have h2 : |c| = -c := abs_of_neg hneg
      rw [CATHandleEncoder_anticlockwise m e c hneg hlo, if_neg h1, h2]
    · have h2 : |c| = c := abs_of_pos hpos
      rw [CATHandleEncoder_pos m e c hpos, if_pos hpos, h2]
  · cases hd : m.DiversityActive <;> simp [EncoderRemap, hd]
  · cases hd : m.DiversityActive <;> simp [EncoderRemap, hd]
  · by_cases hr : m.RitXitActive = 0 <;> simp [EncoderRemap, hr]
  · by_cases hr : m.RitXitActive = 0 <;> simp [EncoderRemap, hr]
  · intro hd
    simp [EncoderRemap, hd]
  · intro hr
    simp [EncoderRemap, hr]
  · intro h6 h7 h8 h9
    simp [EncoderRemap, h6, h7, h8, h9]
  · simp [EncoderRemap]
  · simp [CATHandleEncoder, EncoderRemap]

/-- Witness for C8: encoder 8 with RIT/XIT off, four clicks anticlockwise. -/
theorem CATHandleEncoder_remap_witness :
    (-4 : Int) ≠ 0 ∧ (-127 : Int) ≤ -4 ∧
      CATHandleEncoder ModeFlags.initial 8 (-4) = [{ Cmd := .eZZZE, Param := 664 }] :=
  ⟨by decide, by decide, by
    have h := (CATHandleEncoder_remap ModeFlags.initial 8 (-4) true (by decide) (by decide)).1
    rw [h]
    decide⟩

/-- C9: a release of any button other than 29 leaves `ShiftActive` false; a release of
button 29 leaves `ShiftActive` as it was. -/
theorem CATHandlePushbutton_release_shift (m : ModeFlags) (b : Nat) (hb : b ≠ 29) :
    (CATHandlePushbutton m b false false).1.ShiftActive = false
      ∧ (CATHandlePushbutton m 29 false false).1.ShiftActive = m.ShiftActive := by
  refine ⟨?_, ?_⟩
  · simp only [CATHandlePushbutton]
    split_ifs <;> first | rfl | (exfalso; omega) | simp_all
  · simp [CATHandlePushbutton]

/-- Witness for C9: releasing button 25 while shift is active. -/
theorem CATHandlePushbutton_release_shift_witness :
    (25 : Nat) ≠ 29 ∧
      (CATHandlePushbutton { DiversityActive := false, ShiftActive := true, RitXitActive := 0 }
          25 false false).1.ShiftActive = false :=
  ⟨by decide,
    (CATHandlePushbutton_release_shift
      { DiversityActive := false, ShiftActive := true, RitXitActive := 0 } 25 (by decide)).1⟩

/-- The shift remap of `CATHandlePushbutton` never produces one of the three mode button
ids from another id: the value of the local `Button` is 7, 42 or 29 only when the argument
is. -/
theorem shift_remap_eq_iff (sh : Bool) (b k : Nat) (hk : k = 7 ∨ k = 42 ∨ k = 29) :
    (if sh = true ∧ (b > 20 ∧ b < 29) then b - 8 else b) = k ↔ b = k := by
  split_ifs with h <;> omega

/-- The value of `RitXitActive` stays one of the three states 0, 1, 2 under every call of
`CATHandlePushbutton`. -/
theorem RitXitActive_range (m : ModeFlags) (b : Nat) (p l : Bool)
    (hR : 0 ≤ m.RitXitActive ∧ m.RitXitActive < 3) :
    0 ≤ (CATHandlePushbutton m b p l).1.RitXitActive
      ∧ (CATHandlePushbutton m b p l).1.RitXitActive < 3 := by
  obtain ⟨d, sh, r⟩ := m
  simp only at hR
  have hmod : 0 ≤ Int.tmod (r + 1) 3 ∧ Int.tmod (r + 1) 3 < 3 := by
    rcases hR with ⟨h0, h3⟩
    interval_cases r <;> decide
  simp only [CATHandlePushbutton]
  split_ifs <;> first | exact hR | exact hmod

/-- C10: a press flips `DiversityActive` and nothing else iff `b = 7`, advances
`RitXitActive` to `(RitXitActive+1) mod 3` and nothing else iff `b = 42`, flips
`ShiftActive` and nothing else iff `b = 29`, and changes no flag for any other `b`; a long
press changes no flag; a release changes neither `DiversityActive` nor `RitXitActive`. -/
theorem CATHandlePushbutton_mode_writes (m : ModeFlags) (b : Nat) (p : Bool)
    (hR : 0 ≤ m.RitXitActive ∧ m.RitXitActive < 3) :
    ((CATHandlePushbutton m b true false).1
          = { m with DiversityActive := !m.DiversityActive } ↔ b = 7)
      ∧ ((CATHandlePushbutton m b true false).1
          = { m with RitXitActive := (m.RitXitActive + 1) % 3 } ↔ b = 42)
      ∧ ((CATHandlePushbutton m b true false).1
          = { m with ShiftActive := !m.ShiftActive } ↔ b = 29)
      ∧ (b ≠ 7 → b ≠ 42 → b ≠ 29 → (CATHandlePushbutton m b true false).1 = m)
      ∧ (CATHandlePushbutton m b p true).1 = m
      ∧ (CATHandlePushbutton m b false false).1.DiversityActive = m.DiversityActive
      ∧ (CATHandlePushbutton m b false false).1.RitXitActive = m.RitXitActive := by
  obtain ⟨d, sh, r⟩ := m
  simp only at hR
  have h7 := shift_remap_eq_iff sh b 7 (by simp)
  have h42 := shift_remap_eq_iff sh b 42 (by simp)
  have h29 := shift_remap_eq_iff sh b 29 (by simp)
  have hmod : Int.tmod (r + 1) 3 = (r + 1) % 3 := by
    rcases hR with ⟨h0, h3⟩
    interval_cases r <;> rfl
  have hne : (r + 1) % 3 ≠ r := by omega
  refine ⟨?_, ?_, ?_, ?_, ?_, ?_, ?_⟩
  · simp only [CATHandlePushbutton, h7, h42, h29, hmod]
    by_cases e7 : b = 7
    · simp [e7]
    · by_cases e42 : b = 42
      · simp [e42]
      · by_cases e29 : b = 29
        · simp [e29]
        · simp [e7, e42, e29]
  · simp only [CATHandlePushbutton, h7, h42, h29, hmod]
    by_cases e7 : b = 7
    · simp [e7]
    · by_cases e42 : b = 42
      · simp [e42]
      · by_cases e29 : b = 29
        · simp [e29]
        · simp [e7, e42, e29]
          exact fun h => hne h.symm
  · simp only [CATHandlePushbutton, h7, h42, h29, hmod]
    by_cases e7 : b = 7
    · simp [e7]
    · by_cases e42 : b = 42
      · simp [e42]
      · by_cases e29 : b = 29
        · simp [e29]
        · simp [e7, e42, e29]
  · intro e7 e42 e29
    simp [CATHandlePushbutton, h7, h42, h29, e7, e42, e29]
  · simp [CATHandlePushbutton]
  · simp only [CATHandlePushbutton, h29]
    split_ifs <;> simp
  · simp only [CATHandlePushbutton, h29]
    split_ifs <;> simp

/-- Witness for C10: a press of button 42 in the XIT state returns to off. -/
theorem CATHandlePushbutton_mode_writes_witness :
    ((0 : Int) ≤ 2 ∧ (2 : Int) < 3) ∧
      (CATHandlePushbutton { DiversityActive := false, ShiftActive := false, RitXitActive := 2 }
          42 true false).1
        = { DiversityActive := false, ShiftActive := false, RitXitActive := 0 } :=
  ⟨by decide,
    ((CATHandlePushbutton_mode_writes
      { DiversityActive := false, ShiftActive := false, RitXitActive := 2 } 42 true
      (by decide)).2.1).mpr rfl⟩

/-! ## Theorems: button.cpp -/

set_option maxRecDepth 100000 in
/-- On every 8 bit mask the loop of `AnalyseRowInput` computes the classification that the
specification words. -/
theorem AnalyseRowInput_eq_spec : ∀ m, m < 256 → AnalyseRowInput m = specRowClass m := by
  decide

/-- C3: for every 8 bit active-low row mask, `AnalyseRowInput` returns 0 when no bit is
cleared, `k+1` when bit `k` is the only cleared bit, and `0xFF` when two or more bits are
cleared. -/
theorem AnalyseRowInput_classifies (m : Nat) (hm : m < 256) :
    (clearedBits m = [] → AnalyseRowInput m = 0)
      ∧ (∀ k, clearedBits m = [k] → AnalyseRowInput m = k + 1)
      ∧ (2 ≤ (clearedBits m).length → AnalyseRowInput m = 0xFF) := by
  rw [AnalyseRowInput_eq_spec m hm]
  unfold specRowClass
  refine ⟨?_, ?_, ?_⟩
  · intro h
    rw [h]
  · intro k h
    rw [h]
  · intro h
    match hc : clearedBits m, h with
    | _ :: _ :: _, _ => rfl

/-- Witness for C3: the mask `0xFB` has bit 2 as its only cleared bit and classifies as
row 3. -/
theorem AnalyseRowInput_classifies_witness :
    (0xFB : Nat) < 256 ∧ clearedBits 0xFB = [2] ∧ AnalyseRowInput 0xFB = 2 + 1 :=
  ⟨by decide, by decide,
    (AnalyseRowInput_classifies 0xFB (by decide)).2.1 2 (by decide)⟩

/-- Feeding one more reading: the globals after `rows ++ [x]` are those of one `ButtonTick`
on the globals after `rows`. -/
theorem runTicks_snoc (s : Scanner) (rows : List Nat) (x : Nat) :
    runTicks s (rows ++ [x]) = (ButtonTick (runTicks s rows) x).1 := by
  simp [runTicks, List.foldl_append]

/-- Feeding a first reading: the run continues from the globals after one `ButtonTick`. -/
theorem runTicks_cons (s : Scanner) (x : Nat) (rows : List Nat) :
    runTicks s (x :: rows) = runTicks (ButtonTick s x).1 rows := by
  simp [runTicks]

/-- With a found row in `1 .. 8` and a position inside the byte range, `GetScanCode` is
`column*8 + (row-1)`. -/
theorem GetScanCode_eq (s : Scanner) (h1 : 1 ≤ s.GFoundRow) (h8 : s.GFoundRow ≤ 8)
    (hc : s.GScanColumn * 8 + s.GFoundRow ≤ 256) :
    GetScanCode s = s.GScanColumn * 8 + (s.GFoundRow - 1) := by
  have hne : s.GFoundRow ≠ 0xFF := by omega
  simp only [GetScanCode, hne, if_false, Nat.shiftLeft_eq]
  omega

/-- A lookup that returns a non-zero report code is inside the 40 entries of the table. -/
theorem ReportCodeLookup_pos_lt (i : Nat) (h : ReportCodeLookup.getD i 0 ≠ 0) : i < 40 := by
  by_contra hlt
  apply h
  have hlen : ReportCodeLookup.length ≤ i := by
    have : ReportCodeLookup.length = 40 := by decide
    omega
  exact List.getD_eq_default _ _ hlen

/-- On a mapped position `ButtonPressed` makes the one call carrying the report code. -/
theorem ButtonPressed_mapped (s : Scanner) (l : Bool) (b : Nat)
    (h1 : 1 ≤ s.GFoundRow) (h8 : s.GFoundRow ≤ 8)
    (hb : ReportCodeLookup.getD (s.GScanColumn * 8 + (s.GFoundRow - 1)) 0 = b) (hb0 : b ≠ 0) :
    ButtonPressed s l = [{ Button := b, IsPressed := true, IsLongPressed := l }] := by
  have hlt : s.GScanColumn * 8 + (s.GFoundRow - 1) < 40 :=
    ReportCodeLookup_pos_lt _ (by rw [hb]; exact hb0)
  have hsc := GetScanCode_eq s h1 h8 (by omega)
  have hff : s.GScanColumn * 8 + (s.GFoundRow - 1) ≠ 0xFF := by omega
  simp only [ButtonPressed, hsc, hb]
  rw [if_pos hff, if_pos hb0]

/-- The held-row globals during the debounce delay. -/
theorem heldState_wait (s : Scanner) (r t : Nat) (h0 : 0 < t) (h11 : t ≤ 11) :
    heldState s r t =
      { s with GScanState := .eWaitPressed, GFoundRow := r, GDebounceTickCounter := 11 - t } := by
  have e0 : ¬ t = 0 := by omega
  have e1 : t ≤ VDEBOUNCETICKS + 1 := by simpa [VDEBOUNCETICKS] using h11
  rw [heldState, if_neg e0, if_pos e1]
  rfl

/-- The held-row globals once the press has been accepted. -/
theorem heldState_pressed (s : Scanner) (r t : Nat) (h11 : 11 < t) :
    heldState s r t =
      { s with GScanState := .eButtonPressed, GFoundRow := r, GDebounceTickCounter := 0,
               GLongPressCounter := 1012 - t } := by
  have e0 : ¬ t = 0 := by omega
  have e1 : ¬ t ≤ VDEBOUNCETICKS + 1 := by simpa [VDEBOUNCETICKS] using h11
  rw [heldState, if_neg e0, if_neg e1]
  rfl

/-- One tick of a held single row: the globals move along `heldState`, the short press is
called on tick `VDEBOUNCETICKS + 1`, the long press `VLONGPRESSTHRESHOLD` ticks later, and
no other tick makes a call. -/
theorem ButtonTick_held (s : Scanner) (raw r b t : Nat)
    (hidle : s.GScanState = .eIdle) (hdeb : s.GDebounceTickCounter = 0)
    (hrow : AnalyseRowInput raw = r) (h1 : 1 ≤ r) (h8 : r ≤ 8)
    (hb : ReportCodeLookup.getD (s.GScanColumn * 8 + (r - 1)) 0 = b) (hb0 : b ≠ 0) :
    ButtonTick (heldState s r t) raw =
      (heldState s r (t + 1),
        if t = VDEBOUNCETICKS + 1 then
          [{ Button := b, IsPressed := true, IsLongPressed := false }]
        else if t = VDEBOUNCETICKS + 1 + VLONGPRESSTHRESHOLD then
          [{ Button := b, IsPressed := true, IsLongPressed := true }]
        else []) := by
  obtain ⟨st, col, fr, deb, lc⟩ := s
  simp only at hidle hdeb hb
  subst hidle hdeb
  have hr0 : r ≠ 0 := by omega
  have hrff : r ≠ 255 := by omega
  have hp : ∀ (l : Bool) (lc2 : Nat),
      ButtonPressed { GScanState := .eButtonPressed, GScanColumn := col, GFoundRow := r,
                      GDebounceTickCounter := 0, GLongPressCounter := lc2 } l
        = [{ Button := b, IsPressed := true, IsLongPressed := l }] :=
    fun l lc2 => ButtonPressed_mapped _ l b h1 h8 hb hb0
  simp only [VDEBOUNCETICKS, VLONGPRESSTHRESHOLD]
  rcases Nat.eq_zero_or_pos t with h0 | hpos
  · subst h0
    rw [heldState_wait _ r 1 (by omega) (by omega)]
    simp [heldState, ButtonTick, hrow, hr0, hrff, VDEBOUNCETICKS]
  · by_cases hlt : t < 11
    · rw [heldState_wait _ r t hpos (by omega), heldState_wait _ r (t + 1) (by omega) (by omega)]
      have hd : 11 - t ≠ 0 := by omega
      have ht1 : ¬ t = 10 + 1 := by omega
      have ht2 : ¬ t = 10 + 1 + 1000 := by omega
      simp only [ButtonTick, hd, ne_eq, not_false_eq_true, if_true, ht1, ht2, if_false]
      congr 2
    · by_cases h11 : t = 11
      · subst h11
        rw [heldState_wait _ r 11 (by omega) (by omega), heldState_pressed _ r 12 (by omega)]
        simp [ButtonTick, hrow, hp, VLONGPRESSTHRESHOLD]
      · rw [heldState_pressed _ r t (by omega), heldState_pressed _ r (t + 1) (by omega)]
        have ht1 : ¬ t = 10 + 1 := by omega
        by_cases hl : t < 1011
        · have hd : 1012 - t ≠ 0 := by omega
          have hd2 : 1012 - t - 1 ≠ 0 := by omega
          have ht2 : ¬ t = 10 + 1 + 1000 := by omega
          simp [ButtonTick, hrow, hr0, hd, hd2, ht1, ht2]
          omega
        · by_cases hl2 : t = 1011
          · subst hl2
            simp [ButtonTick, hrow, hr0, hp]
          · have hd : 1012 - t = 0 := by omega
            have hd1 : 1012 - (t + 1) = 0 := by omega
            have ht2 : ¬ t = 10 + 1 + 1000 := by omega
            simp [ButtonTick, hrow, hr0, hd, hd1, ht1, ht2]

/-- The scanner globals after `t` ticks that all read the same single row. -/
theorem runTicks_held (s : Scanner) (raw r b : Nat)
    (hidle : s.GScanState = .eIdle) (hdeb : s.GDebounceTickCounter = 0)
    (hrow : AnalyseRowInput raw = r) (h1 : 1 ≤ r) (h8 : r ≤ 8)
    (hb : ReportCodeLookup.getD (s.GScanColumn * 8 + (r - 1)) 0 = b) (hb0 : b ≠ 0) (t : Nat) :
    runTicks s (List.replicate t raw) = heldState s r t := by
  induction t with
  | zero => simp [runTicks, heldState]
  | succ n ih =>
    rw [List.replicate_succ', runTicks_snoc, ih,
      ButtonTick_held s raw r b n hidle hdeb hrow h1 h8 hb hb0]

/-- C1: from Idle with no delay armed, on a position whose report code `b` is non-zero, when
every tick reads the same single row `r`: the tick with index `VDEBOUNCETICKS + 1` (the
first one evaluated after the delay armed at detection, tick 0) makes the one short-press
call, the tick `VLONGPRESSTHRESHOLD` later makes the one long-press call, and every other
tick makes no call at all. -/
theorem held_button_events (s : Scanner) (raw r b : Nat)
    (hidle : s.GScanState = .eIdle) (hdeb : s.GDebounceTickCounter = 0)
    (hrow : AnalyseRowInput raw = r) (h1 : 1 ≤ r) (h8 : r ≤ 8)
    (hb : ReportCodeLookup.getD (s.GScanColumn * 8 + (r - 1)) 0 = b) (hb0 : b ≠ 0) (t : Nat) :
    callsAfter s (List.replicate t raw) raw =
      if t = VDEBOUNCETICKS + 1 then
        [{ Button := b, IsPressed := true, IsLongPressed := false }]
      else if t = VDEBOUNCETICKS + 1 + VLONGPRESSTHRESHOLD then
        [{ Button := b, IsPressed := true, IsLongPressed := true }]
      else [] := by
  rw [callsAfter, runTicks_held s raw r b hidle hdeb hrow h1 h8 hb hb0 t,
    ButtonTick_held s raw r b t hidle hdeb hrow h1 h8 hb hb0]

/-- Witness for C1: row 1 of column 0 (report code 21) held from the initialised scanner;
the tick with index 1011 makes the long-press call. -/
theorem held_button_events_witness :
    (GButtonInitialise Scanner.powerOn).GScanState = .eIdle
      ∧ (GButtonInitialise Scanner.powerOn).GDebounceTickCounter = 0
      ∧ AnalyseRowInput 0xFE = 1
      ∧ ReportCodeLookup.getD ((GButtonInitialise Scanner.powerOn).GScanColumn * 8 + (1 - 1)) 0 = 21
      ∧ callsAfter (GButtonInitialise Scanner.powerOn) (List.replicate 1011 0xFE) 0xFE
          = [{ Button := 21, IsPressed := true, IsLongPressed := true }] :=
  ⟨rfl, rfl, by decide, by decide, by
    have h := held_button_events (GButtonInitialise Scanner.powerOn) 0xFE 1 21 rfl rfl
      (by decide) (by decide) (by decide) (by decide) (by decide) 1011
    rw [h]
    decide⟩

/-- While a debounce delay is armed a tick only counts it down and makes no call. -/
theorem ButtonTick_delay (st : Scanner) (x : Nat) (hd : st.GDebounceTickCounter ≠ 0) :
    ButtonTick st x =
      ({ st with GDebounceTickCounter := st.GDebounceTickCounter - 1 }, []) := by
  simp [ButtonTick, hd]

/-- One tick preserves the history invariant. -/
theorem ScanInv_step (s0 : Scanner) (hist : List Nat) (x : Nat)
    (h : ScanInv s0 hist (runTicks s0 hist)) :
    ScanInv s0 (hist ++ [x]) (ButtonTick (runTicks s0 hist) x).1 := by
  generalize hst : runTicks s0 hist = st at h
  obtain ⟨hW, hB, hM⟩ := h
  obtain ⟨state, col, fr, deb, lc⟩ := st
  simp only [VDEBOUNCETICKS, VLONGPRESSTHRESHOLD] at hW hB hM
  by_cases hd : deb = 0
  · subst hd
    refine ⟨?_, ?_, ?_⟩
    · intro hnew
      cases state with
      | eIdle =>
        simp only [ButtonTick, ne_eq, not_true_eq_false, if_false] at hnew ⊢
        split_ifs at hnew ⊢ with h0 hff
        exact ⟨h0, hff, hist, x, [], by simp, by simp [VDEBOUNCETICKS], rfl,
          by rw [hst], by rw [hst]⟩
      | _ =>
        simp only [ButtonTick, ne_eq, not_true_eq_false, if_false] at hnew ⊢
        split_ifs at hnew ⊢
    · intro hnew
      cases state with
      | eWaitPressed =>
        obtain ⟨h0, hff, -⟩ := hW rfl
        simp only [ButtonTick, ne_eq, not_true_eq_false, if_false] at hnew ⊢
        split_ifs at hnew ⊢ with hrow
        exact ⟨rfl, h0, hff, fun _ =>
          ⟨hist, [x], rfl, by simp [VLONGPRESSTHRESHOLD], by simpa using hrow⟩⟩
      | eButtonPressed =>
        obtain ⟨-, h0, hff, hheld⟩ := hB rfl
        simp only [ButtonTick, ne_eq, not_true_eq_false, if_false] at hnew ⊢
        split_ifs at hnew ⊢ with hr0 hrne hlc hlc1
        · exact ⟨rfl, h0, hff, fun hc => absurd hlc hc⟩
        · exact ⟨rfl, h0, hff, fun hc => absurd hlc1 hc⟩
        · obtain ⟨pre, held, rfl, hlen, hall⟩ := hheld hlc
          refine ⟨rfl, h0, hff, fun _ => ⟨pre, held ++ [x], by simp, ?_, ?_⟩⟩
          · simp only [List.length_append, List.length_singleton, VLONGPRESSTHRESHOLD]
            omega
          · intro y hy
            rcases List.mem_append.mp hy with hy | hy
            · exact hall y hy
            · rw [List.mem_singleton.mp hy]
              exact hrne
      | _ =>
        simp only [ButtonTick, ne_eq, not_true_eq_false, if_false] at hnew ⊢
        split_ifs at hnew ⊢
    · intro hnew
      cases state with
      | eMultiPressed =>
        simp only [ButtonTick, ne_eq, not_true_eq_false, if_false] at hnew ⊢
        split_ifs at hnew ⊢ with hrow
        exact ⟨hist, x, [], by simp, by simp [VDEBOUNCETICKS], hrow, by rw [hst], by rw [hst]⟩
      | _ =>
        simp only [ButtonTick, ne_eq, not_true_eq_false, if_false] at hnew ⊢
        split_ifs at hnew ⊢
  · rw [ButtonTick_delay _ x hd]
    refine ⟨?_, ?_, ?_⟩
    · intro hnew
      obtain ⟨h0, hff, pre, x0, mid, rfl, hlen, hx0, hi, hd0⟩ := hW hnew
      exact ⟨h0, hff, pre, x0, mid ++ [x], by simp, by
        simp [VDEBOUNCETICKS]
        omega, hx0, hi, hd0⟩
    · intro hnew
      exact absurd (hB hnew).1 hd
    · intro hnew
      obtain ⟨pre, x0, mid, rfl, hlen, hx0, hi, hd0⟩ := hM hnew
      exact ⟨pre, x0, mid ++ [x], by simp, by
        simp [VDEBOUNCETICKS]
        omega, hx0, hi, hd0⟩

/-- The history invariant holds after every run that starts in `eIdle`. -/
theorem ScanInv_runTicks (s0 : Scanner) (hist : List Nat) (hidle : s0.GScanState = .eIdle) :
    ScanInv s0 hist (runTicks s0 hist) := by
  induction hist using List.reverseRecOn with
  | nil =>
    refine ⟨?_, ?_, ?_⟩ <;> intro h <;> simp [runTicks, hidle] at h
  | append_singleton l a ih =>
    rw [runTicks_snoc]
    exact ScanInv_step s0 l a ih

/-- Every call made by `ButtonPressed` is a press with the given long-press flag. -/
theorem mem_ButtonPressed (s : Scanner) (l : Bool) (c : PushbuttonCall)
    (hc : c ∈ ButtonPressed s l) : c.IsPressed = true ∧ c.IsLongPressed = l := by
  simp only [ButtonPressed] at hc
  split_ifs at hc <;> simp at hc
  subst hc
  exact ⟨rfl, rfl⟩

/-- Every call made by `ButtonReleased` is a release. -/
theorem mem_ButtonReleased (s : Scanner) (c : PushbuttonCall)
    (hc : c ∈ ButtonReleased s) : c.IsPressed = false ∧ c.IsLongPressed = false := by
  simp only [ButtonReleased] at hc
  split_ifs at hc <;> simp at hc
  subst hc
  exact ⟨rfl, rfl⟩

/-- C2 as amended: from Idle, a tick that makes a short-press call reads a single row, and
the detection tick `VDEBOUNCETICKS + 1` ticks earlier, evaluated in `eIdle` with no delay
armed, read that same row (nothing is said of the `VDEBOUNCETICKS` delay ticks between
them); a tick that makes a long-press call reads a single row that each of the
`VLONGPRESSTHRESHOLD` ticks before it also read. -/
theorem press_after_debounce (s : Scanner) (hist : List Nat) (x : Nat) (c : PushbuttonCall)
    (hidle : s.GScanState = .eIdle) (hc : c ∈ callsAfter s hist x)
    (hp : c.IsPressed = true) :
    (AnalyseRowInput x ≠ 0 ∧ AnalyseRowInput x ≠ 0xFF)
      ∧ (c.IsLongPressed = false →
          ∃ pre x0 mid, hist = pre ++ x0 :: mid ∧ mid.length = VDEBOUNCETICKS
            ∧ AnalyseRowInput x0 = AnalyseRowInput x
            ∧ (runTicks s pre).GScanState = .eIdle
            ∧ (runTicks s pre).GDebounceTickCounter = 0)
      ∧ (c.IsLongPressed = true →
          ∃ pre held, hist = pre ++ held ∧ held.length = VLONGPRESSTHRESHOLD
            ∧ ∀ y ∈ held, AnalyseRowInput y = AnalyseRowInput x) := by
  have inv := ScanInv_runTicks s hist hidle
  unfold callsAfter at hc
  generalize runTicks s hist = st at inv hc
  obtain ⟨hW, hB, -⟩ := inv
  obtain ⟨state, col, fr, deb, lc⟩ := st
  simp only [VDEBOUNCETICKS, VLONGPRESSTHRESHOLD] at hW hB ⊢
  by_cases hd : deb = 0
  · subst hd
    cases state with
    | eWaitPressed =>
      obtain ⟨h0, hff, pre, x0, mid, hsplit, hlen, hx0, hi, hd0⟩ := hW rfl
      simp only [ButtonTick, ne_eq, not_true_eq_false, if_false] at hc
      split_ifs at hc with hrow
      · have hl := (mem_ButtonPressed _ _ c hc).2
        rw [hrow]
        refine ⟨⟨h0, hff⟩, fun _ => ⟨pre, x0, mid, hsplit, by omega, hx0, hi, hd0⟩, ?_⟩
        intro h
        rw [hl] at h
        exact absurd h (by decide)
      · simp at hc
    | eButtonPressed =>
      obtain ⟨-, h0, hff, hheld⟩ := hB rfl
      simp only [ButtonTick, ne_eq, not_true_eq_false, if_false] at hc
      split_ifs at hc with hr0 hrne hlc hlc1
      · simp at hc
      · simp at hc
      · have hl := (mem_ButtonPressed _ _ c hc).2
        obtain ⟨pre, held, hsplit, hlen, hall⟩ := hheld hlc
        rw [hrne]
        refine ⟨⟨h0, hff⟩, ?_, fun _ => ⟨pre, held, hsplit, ?_, hall⟩⟩
        · intro h
          rw [hl] at h
          exact absurd h (by decide)
        · simp only at hlc1
          omega
      · simp at hc
      · have hr := (mem_ButtonReleased _ c hc).1
        rw [hr] at hp
        exact absurd hp (by decide)
    | eWaitReleased =>
      simp only [ButtonTick, ne_eq, not_true_eq_false, if_false] at hc
      split_ifs at hc
      · have hr := (mem_ButtonReleased _ c hc).1
        rw [hr] at hp
        exact absurd hp (by decide)
      · simp at hc
      · simp at hc
    | _ =>
      simp only [ButtonTick, ne_eq, not_true_eq_false, if_false] at hc
      split_ifs at hc <;> simp at hc
  · rw [ButtonTick_delay _ x hd] at hc
    simp at hc

/-- Witness for C2 as amended: row 1 read at detection, no row during the ten delay ticks,
row 1 again on the evaluated tick, which makes the short-press call for report code 21. -/
theorem press_after_debounce_witness :
    (GButtonInitialise Scanner.powerOn).GScanState = .eIdle
      ∧ ({ Button := 21, IsPressed := true, IsLongPressed := false } : PushbuttonCall)
          ∈ callsAfter (GButtonInitialise Scanner.powerOn) (0xFE :: List.replicate 10 0xFF) 0xFE
      ∧ ∃ pre x0 mid, 0xFE :: List.replicate 10 0xFF = pre ++ x0 :: mid
          ∧ mid.length = VDEBOUNCETICKS
          ∧ AnalyseRowInput x0 = AnalyseRowInput 0xFE
          ∧ (runTicks (GButtonInitialise Scanner.powerOn) pre).GScanState = .eIdle
          ∧ (runTicks (GButtonInitialise Scanner.powerOn) pre).GDebounceTickCounter = 0 :=
  ⟨rfl, by decide,
    (press_after_debounce (GButtonInitialise Scanner.powerOn) (0xFE :: List.replicate 10 0xFF)
      0xFE { Button := 21, IsPressed := true, IsLongPressed := false } rfl (by decide) rfl).2.1
      rfl⟩

/-- C2 as stated fails: from the initialised scanner the readings row 1, ten times no row,
row 1 make the last tick call the short press, although none of the `VDEBOUNCETICKS`
readings before it is row 1. -/
theorem debounce_window_counterexample :
    ¬ (∀ (hist : List Nat) (x : Nat) (c : PushbuttonCall),
        c ∈ callsAfter (GButtonInitialise Scanner.powerOn) hist x → c.IsPressed = true →
          VDEBOUNCETICKS ≤ hist.length
            ∧ ∀ y ∈ hist.drop (hist.length - VDEBOUNCETICKS),
                AnalyseRowInput y = AnalyseRowInput x) := by
  intro h
  have h1 := (h (0xFE :: List.replicate 10 0xFF) 0xFE
    { Button := 21, IsPressed := true, IsLongPressed := false } (by decide) rfl).2 0xFF
    (by decide)
  revert h1
  decide

/-- A tick evaluated in `eIdle` that reads more than one row enters `eMultiPressed` with the
debounce delay armed. -/
theorem ButtonTick_idle_multi (s : Scanner) (x : Nat) (hidle : s.GScanState = .eIdle)
    (hdeb : s.GDebounceTickCounter = 0) (hx : AnalyseRowInput x = 0xFF) :
    (ButtonTick s x).1 =
      { s with GScanState := .eMultiPressed, GDebounceTickCounter := VDEBOUNCETICKS } := by
  obtain ⟨state, col, fr, deb, lc⟩ := s
  simp only at hidle hdeb
  subst hidle hdeb
  simp [ButtonTick, hx]

/-- From `eMultiPressed` or `eWaitMultiReleased` a tick makes no call and stays in these two
states or moves to `eIdle`; it moves to `eIdle` only when it is evaluated in
`eWaitMultiReleased` and reads no row, and it then arms the debounce delay. -/
theorem ButtonTick_multi (st : Scanner) (y : Nat)
    (h : st.GScanState = .eMultiPressed ∨ st.GScanState = .eWaitMultiReleased) :
    (ButtonTick st y).2 = []
      ∧ ((ButtonTick st y).1.GScanState = .eMultiPressed
          ∨ (ButtonTick st y).1.GScanState = .eWaitMultiReleased
          ∨ (ButtonTick st y).1.GScanState = .eIdle)
      ∧ ((ButtonTick st y).1.GScanState = .eIdle →
          AnalyseRowInput y = 0 ∧ st.GScanState = .eWaitMultiReleased
            ∧ st.GDebounceTickCounter = 0
            ∧ (ButtonTick st y).1.GDebounceTickCounter = VDEBOUNCETICKS) := by
  obtain ⟨state, col, fr, deb, lc⟩ := st
  simp only at h
  by_cases hd : deb = 0
  · subst hd
    rcases h with h | h <;> subst h <;>
      simp only [ButtonTick, ne_eq, not_true_eq_false, if_false] <;>
      split_ifs with hrow <;> simp [hrow]
  · rw [ButtonTick_delay _ y hd]
    rcases h with h | h <;> subst h <;> simp

/-- A run from `eMultiPressed` that has not been in `eIdle` is in `eMultiPressed` or
`eWaitMultiReleased`. -/
theorem runTicks_multi_busy (s1 : Scanner) (hist : List Nat)
    (h1 : s1.GScanState = .eMultiPressed)
    (hbusy : ∀ k, k ≤ hist.length → (runTicks s1 (hist.take k)).GScanState ≠ .eIdle) :
    (runTicks s1 hist).GScanState = .eMultiPressed
      ∨ (runTicks s1 hist).GScanState = .eWaitMultiReleased := by
  induction hist using List.reverseRecOn with
  | nil => exact Or.inl h1
  | append_singleton l a ih =>
    have hl : ∀ k, k ≤ l.length → (runTicks s1 (l.take k)).GScanState ≠ .eIdle := by
      intro k hk
      have := hbusy k (by simp; omega)
      rwa [List.take_append_of_le_length hk] at this
    have hlast := hbusy (l ++ [a]).length (le_refl _)
    rw [List.take_length, runTicks_snoc] at hlast
    rw [runTicks_snoc]
    rcases (ButtonTick_multi (runTicks s1 l) a (ih hl)).2.1 with h | h | h
    · exact Or.inl h
    · exact Or.inr h
    · exact absurd h hlast

/-- C4: after a tick evaluated in `eIdle` has read more than one row, as long as the run has
not been back in `eIdle` no tick makes a call (no press, and no release either); and the
tick that returns to `eIdle` is evaluated in `eWaitMultiReleased`, reads no row, arms a
further `VDEBOUNCETICKS` delay, and comes `VDEBOUNCETICKS` delay ticks after a tick that was
evaluated in `eMultiPressed` and read no row. -/
theorem multi_press_lockout (s : Scanner) (x : Nat) (hist : List Nat) (y : Nat)
    (hidle : s.GScanState = .eIdle) (hdeb : s.GDebounceTickCounter = 0)
    (hx : AnalyseRowInput x = 0xFF)
    (hbusy : ∀ k, k ≤ hist.length →
      (runTicks (ButtonTick s x).1 (hist.take k)).GScanState ≠ .eIdle) :
    callsAfter (ButtonTick s x).1 hist y = []
      ∧ ((ButtonTick (runTicks (ButtonTick s x).1 hist) y).1.GScanState = .eIdle →
          AnalyseRowInput y = 0
            ∧ (runTicks (ButtonTick s x).1 hist).GScanState = .eWaitMultiReleased
            ∧ (runTicks (ButtonTick s x).1 hist).GDebounceTickCounter = 0
            ∧ (ButtonTick (runTicks (ButtonTick s x).1 hist) y).1.GDebounceTickCounter
                = VDEBOUNCETICKS
            ∧ ∃ pre n1 mid, hist = pre ++ n1 :: mid ∧ mid.length = VDEBOUNCETICKS
                ∧ AnalyseRowInput n1 = 0
                ∧ (runTicks (ButtonTick s x).1 pre).GScanState = .eMultiPressed
                ∧ (runTicks (ButtonTick s x).1 pre).GDebounceTickCounter = 0) := by
  have h1 : (ButtonTick s x).1.GScanState = .eMultiPressed := by
    rw [ButtonTick_idle_multi s x hidle hdeb hx]
  have hb := runTicks_multi_busy (ButtonTick s x).1 hist h1 hbusy
  have hm := ButtonTick_multi (runTicks (ButtonTick s x).1 hist) y hb
  refine ⟨hm.1, ?_⟩
  intro hI
  obtain ⟨hy, hw, hd0, hd10⟩ := hm.2.2 hI
  refine ⟨hy, hw, hd0, hd10, ?_⟩
  have inv := ScanInv_runTicks s (x :: hist) hidle
  rw [runTicks_cons] at inv
  obtain ⟨pre, n1, mid, hsplit, hlen, hn1, hpm, hpd⟩ := inv.2.2 hw
  cases pre with
  | nil =>
    simp only [runTicks, List.foldl_nil] at hpm
    rw [hidle] at hpm
    exact absurd hpm (by decide)
  | cons p pre1 =>
    rw [List.cons_append] at hsplit
    obtain ⟨hp, hrest⟩ := List.cons.inj hsplit
    subst hp
    rw [runTicks_cons] at hpm hpd
    exact ⟨pre1, n1, mid, hrest, by omega, hn1, hpm, hpd⟩

/-- Witness for C4: rows 1 and 2 read together from the initialised scanner, then 21
readings of no row; the next tick that reads no row returns to `eIdle` and makes no
call. -/
theorem multi_press_lockout_witness :
    (GButtonInitialise Scanner.powerOn).GScanState = .eIdle
      ∧ (GButtonInitialise Scanner.powerOn).GDebounceTickCounter = 0
      ∧ AnalyseRowInput 0xFC = 0xFF
      ∧ (∀ k, k ≤ (List.replicate 21 0xFF).length →
          (runTicks (ButtonTick (GButtonInitialise Scanner.powerOn) 0xFC).1
            ((List.replicate 21 0xFF).take k)).GScanState ≠ .eIdle)
      ∧ callsAfter (ButtonTick (GButtonInitialise Scanner.powerOn) 0xFC).1
          (List.replicate 21 0xFF) 0xFF = []
      ∧ (ButtonTick (runTicks (ButtonTick (GButtonInitialise Scanner.powerOn) 0xFC).1
          (List.replicate 21 0xFF)) 0xFF).1.GScanState = .eIdle :=
  ⟨rfl, rfl, by decide, by decide,
    (multi_press_lockout (GButtonInitialise Scanner.powerOn) 0xFC (List.replicate 21 0xFF) 0xFF
      rfl rfl (by decide) (by decide)).1,
    by decide⟩

/-! ## Theorems: cathandler.cpp, clipping and command dispatch -/

/-- C11: for a descriptor with `MinParamValue ≤ MaxParamValue`, `ClipParameter` returns
`Param` when it lies in the range, the maximum when `Param` is above it and the minimum when
`Param` is below it, so the result is always in the range; with the range `[0, 9]`, 15 clips
to 9 and -3 clips to 0. -/
theorem ClipParameter_saturates (G : ECATCommands → SCATCommands) (Param : Int)
    (Cmd : ECATCommands) (hmm : (G Cmd).MinParamValue ≤ (G Cmd).MaxParamValue) :
    ((G Cmd).MinParamValue ≤ Param → Param ≤ (G Cmd).MaxParamValue →
        ClipParameter G Param Cmd = Param)
      ∧ (Param > (G Cmd).MaxParamValue → ClipParameter G Param Cmd = (G Cmd).MaxParamValue)
      ∧ (Param < (G Cmd).MinParamValue → ClipParameter G Param Cmd = (G Cmd).MinParamValue)
      ∧ (G Cmd).MinParamValue ≤ ClipParameter G Param Cmd
      ∧ ClipParameter G Param Cmd ≤ (G Cmd).MaxParamValue
      ∧ ClipParameter (fun _ => { MinParamValue := 0, MaxParamValue := 9 }) 15 Cmd = 9
      ∧ ClipParameter (fun _ => { MinParamValue := 0, MaxParamValue := 9 }) (-3) Cmd = 0 := by
  refine ⟨?_, ?_, ?_, ?_, ?_, ?_, ?_⟩
  · intro h1 h2
    simp only [ClipParameter]
    split_ifs <;> omega
  · intro h1
    simp only [ClipParameter]
    rw [if_pos h1]
  · intro h1
    simp only [ClipParameter]
    split_ifs <;> omega
  · simp only [ClipParameter]
    split_ifs <;> omega
  · simp only [ClipParameter]
    split_ifs <;> omega
  · simp [ClipParameter]
  · simp [ClipParameter]

/-- Witness for C11: the range `[10, 99]` and the parameter 250. -/
theorem ClipParameter_saturates_witness :
    (10 : Int) ≤ 99 ∧
      ClipParameter (fun _ => { MinParamValue := 10, MaxParamValue := 99 }) 250 .eZZZI = 99 :=
  ⟨by decide,
    (ClipParameter_saturates (fun _ => { MinParamValue := 10, MaxParamValue := 99 }) 250 .eZZZI
      (by decide)).2.1 (by decide)⟩

/-- C12 as stated fails: position 31 of `ReportCodeLookup` holds 32, not 0. -/
theorem ReportCodeLookup_position31_counterexample :
    ¬ (ReportCodeLookup[0]? = some 21 ∧ ReportCodeLookup[10]? = some 1
        ∧ ReportCodeLookup[31]? = some 0 ∧ ReportCodeLookup[39]? = some 5) := by
  decide

/-- C12 as amended: `ReportCodeLookup` has 40 entries and maps position 0 to 21, position 10
to 1, position 31 to 32 and position 39 to 5; the unused slots, which hold 0, are exactly
the positions 32 to 35. -/
theorem ReportCodeLookup_values :
    ReportCodeLookup.length = 40
      ∧ ReportCodeLookup[0]? = some 21 ∧ ReportCodeLookup[10]? = some 1
      ∧ ReportCodeLookup[31]? = some 32 ∧ ReportCodeLookup[39]? = some 5
      ∧ ∀ i, i < 40 → (ReportCodeLookup[i]? = some 0 ↔ 32 ≤ i ∧ i ≤ 35) := by
  decide

/-- Witness for C12 as amended: position 33 is one of the unused slots. -/
theorem ReportCodeLookup_values_witness :
    33 < 40 ∧ (ReportCodeLookup[33]? = some 0 ↔ 32 ≤ 33 ∧ 33 ≤ 35) :=
  ⟨by decide, ReportCodeLookup_values.2.2.2.2.2 33 (by decide)⟩

/-- C15: when the three constants are in ranges that keep the `int` product
`HWVERSION*1000` and the `long` sums from wrapping, the value handed to the `ZZZS` response
is `PRODUCTID*100000 + HWVERSION*1000 + SWVERSION`; for 2, 3 and 15 it is 203015. -/
theorem MakeSoftwareVersionMessage_value (P H S : Int)
    (hP : 0 ≤ P ∧ P ≤ 21473) (hH : 0 ≤ H ∧ H ≤ 32) (hS : 0 ≤ S ∧ S ≤ 32767) :
    MakeSoftwareVersionMessage P H S =
        [{ Cmd := .eZZZS, Param := P * 100000 + H * 1000 + S }]
      ∧ MakeSoftwareVersionMessage 2 3 15 = [{ Cmd := .eZZZS, Param := 203015 }] := by
  refine ⟨?_, by decide⟩
  have e1 : wrapInt (H * 1000) = H * 1000 := by
    unfold wrapInt
    omega
  have e2 : wrapLong (P * 100000) = P * 100000 := by
    unfold wrapLong
    omega
  have e3 : wrapLong (P * 100000 + H * 1000) = P * 100000 + H * 1000 := by
    unfold wrapLong
    omega
  have e4 : wrapLong (P * 100000 + H * 1000 + S) = P * 100000 + H * 1000 + S := by
    unfold wrapLong
    omega
  simp only [MakeSoftwareVersionMessage, e1, e2, e3, e4]

/-- Witness for C15: product 1, hardware version 2, software version 9. -/
theorem MakeSoftwareVersionMessage_value_witness :
    ((0 : Int) ≤ 1 ∧ (1 : Int) ≤ 21473) ∧ ((0 : Int) ≤ 2 ∧ (2 : Int) ≤ 32)
      ∧ ((0 : Int) ≤ 9 ∧ (9 : Int) ≤ 32767)
      ∧ MakeSoftwareVersionMessage 1 2 9
          = [{ Cmd := .eZZZS, Param := 1 * 100000 + 2 * 1000 + 9 }] :=
  ⟨by decide, by decide, by decide,
    (MakeSoftwareVersionMessage_value 1 2 9 (by decide) (by decide) (by decide)).1⟩

/-- C13: for `0 ≤ p ≤ 99`, after `HandleCATCommandNumParam(eZZZX, p)` the normal divisor is
`p mod 10` (1 if that is 0) and the VFO divisor is `p / 10` (1 if that is 0), neither is 0
(both are in `1 .. 9`), both are persisted and propagated, and a following `ZZZX` query emits
`vfoDivisor*10 + normalDivisor`, which is `p` when both decimal digits of `p` are
non-zero. -/
theorem encoder_divisor_round_trip (cfg : EncoderSettings) (p P H S : Int)
    (h0 : 0 ≤ p) (h99 : p ≤ 99) :
    (HandleCATCommandNumParam cfg .eZZZX p).1.GEncoderDivisor
        = (if p % 10 = 0 then 1 else p % 10)
      ∧ (HandleCATCommandNumParam cfg .eZZZX p).1.GVFOEncoderDivisor
        = (if p / 10 = 0 then 1 else p / 10)
      ∧ (HandleCATCommandNumParam cfg .eZZZX p).1.GEncoderDivisor ≠ 0
      ∧ (HandleCATCommandNumParam cfg .eZZZX p).1.GVFOEncoderDivisor ≠ 0
      ∧ ((HandleCATCommandNumParam cfg .eZZZX p).1.GEncoderDivisor ≤ 9
          ∧ (HandleCATCommandNumParam cfg .eZZZX p).1.GVFOEncoderDivisor ≤ 9)
      ∧ (HandleCATCommandNumParam cfg .eZZZX p).2
        = [.CopySettingsToEEprom,
           .SetEncoderDivisors (HandleCATCommandNumParam cfg .eZZZX p).1.GEncoderDivisor
             (HandleCATCommandNumParam cfg .eZZZX p).1.GVFOEncoderDivisor]
      ∧ HandleCATCommandNoParam P H S (HandleCATCommandNumParam cfg .eZZZX p).1 .eZZZX
        = [{ Cmd := .eZZZX,
             Param := (HandleCATCommandNumParam cfg .eZZZX p).1.GVFOEncoderDivisor * 10
                        + (HandleCATCommandNumParam cfg .eZZZX p).1.GEncoderDivisor }]
      ∧ (p % 10 ≠ 0 → p / 10 ≠ 0 →
          HandleCATCommandNoParam P H S (HandleCATCommandNumParam cfg .eZZZX p).1 .eZZZX
            = [{ Cmd := .eZZZX, Param := p }]) := by
  have hm : Int.tmod p 10 = p % 10 := Int.tmod_eq_emod h0 (by decide)
  have hd : Int.tdiv p 10 = p / 10 := Int.tdiv_eq_ediv h0 (by decide)
  have hb : p % 10 % 256 = p % 10 := by omega
  have e1 : (HandleCATCommandNumParam cfg .eZZZX p).1.GEncoderDivisor
      = (if p % 10 = 0 then 1 else p % 10) := by
    simp only [HandleCATCommandNumParam, hm, hd, hb]
    split_ifs <;> rfl
  have e2 : (HandleCATCommandNumParam cfg .eZZZX p).1.GVFOEncoderDivisor
      = (if p / 10 = 0 then 1 else p / 10) := by
    simp only [HandleCATCommandNumParam, hm, hd, hb]
    split_ifs <;> rfl
  refine ⟨e1, e2, ?_, ?_, ⟨?_, ?_⟩, rfl, rfl, ?_⟩
  · rw [e1]
    split_ifs <;> omega
  · rw [e2]
    split_ifs <;> omega
  · rw [e1]
    split_ifs <;> omega
  · rw [e2]
    split_ifs <;> omega
  · intro hn hv
    simp only [HandleCATCommandNoParam, MakeEncoderIncrementMessage, e1, e2, if_neg hn, if_neg hv]
    congr 2
    omega

/-- Witness for C13: the parameter 47 sets the VFO divisor 4 and the normal divisor 7, and
the query answers 47. -/
theorem encoder_divisor_round_trip_witness :
    (0 : Int) ≤ 47 ∧ (47 : Int) ≤ 99 ∧
      HandleCATCommandNoParam 2 3 15
          (HandleCATCommandNumParam { GEncoderDivisor := 1, GVFOEncoderDivisor := 1 } .eZZZX 47).1
          .eZZZX
        = [{ Cmd := .eZZZX, Param := 47 }] :=
  ⟨by decide, by decide,
    (encoder_divisor_round_trip { GEncoderDivisor := 1, GVFOEncoderDivisor := 1 } 47 2 3 15
      (by decide) (by decide)).2.2.2.2.2.2.2 (by decide) (by decide)⟩

/-- C14 as stated fails: for the parameter 5 the `int` index `5/10 - 1 = -1` reaches the
`byte` parameter of `SetLED` as 255. -/
theorem set_indicator_counterexample :
    (HandleCATCommandNumParam { GEncoderDivisor := 1, GVFOEncoderDivisor := 1 } .eZZZI 5).2
        = [.SetLED 255 true]
      ∧ ((255 : Nat) : Int) ≠ 5 / 10 - 1 := by
  decide

/-- C14 as amended: `HandleCATCommandNumParam(eZZZI, p)` makes exactly one `SetLED` call and
leaves both divisors unchanged; the LED number is `p/10 - 1` (truncating division) reduced
modulo 256 into the `byte` parameter, which is `p/10 - 1` itself for `10 ≤ p ≤ 2569`; the
state is true iff `p mod 10` is not 0. -/
theorem set_indicator_decoding (cfg : EncoderSettings) (p : Int) :
    ∃ (idx : Nat) (st : Bool),
      HandleCATCommandNumParam cfg .eZZZI p = (cfg, [.SetLED idx st])
        ∧ (idx : Int) = (Int.tdiv p 10 - 1) % 256
        ∧ (10 ≤ p → p ≤ 2569 → (idx : Int) = p / 10 - 1)
        ∧ (st = true ↔ p % 10 ≠ 0) := by
  refine ⟨((Int.tdiv p 10 - 1) % 256).toNat,
    if Int.tmod p 10 ≠ 0 then true else false, rfl, ?_, ?_, ?_⟩
  · exact Int.toNat_of_nonneg (Int.emod_nonneg _ (by decide))
  · intro h10 h2569
    have hd : Int.tdiv p 10 = p / 10 := Int.tdiv_eq_ediv (by omega) (by decide)
    rw [Int.toNat_of_nonneg (Int.emod_nonneg _ (by decide)), hd]
    omega
  · have hiff : Int.tmod p 10 = 0 ↔ p % 10 = 0 := by
      constructor
      · intro h
        exact Int.emod_eq_zero_of_dvd (Int.dvd_of_tmod_eq_zero h)
      · intro h
        exact Int.tmod_eq_zero_of_dvd (Int.dvd_of_emod_eq_zero h)
    by_cases ht : Int.tmod p 10 = 0
    · simp [ht, hiff.mp ht]
    · have he : ¬ p % 10 = 0 := fun h => ht (hiff.mpr h)
      simp [ht, he]

/-- Witness for C14 as amended: the parameter 31 switches LED number 2 on. -/
theorem set_indicator_decoding_witness :
    (10 : Int) ≤ 31 ∧ (31 : Int) ≤ 2569 ∧
      HandleCATCommandNumParam { GEncoderDivisor := 1, GVFOEncoderDivisor := 1 } .eZZZI 31
        = ({ GEncoderDivisor := 1, GVFOEncoderDivisor := 1 }, [.SetLED 2 true]) := by
  refine ⟨by decide, by decide, ?_⟩
  obtain ⟨idx, st, h, -, hidx, hst⟩ :=
    set_indicator_decoding { GEncoderDivisor := 1, GVFOEncoderDivisor := 1 } 31
  have h2 : (idx : Int) = 2 := by
    rw [hidx (by decide) (by decide)]
    decide
  have h3 : st = true := hst.mpr (by decide)
  rw [h, h3]
  have h4 : idx = 2 := by omega
  rw [h4]

/-- C19: for a post-remap index in `0 .. 49` and a non-zero click count in `-9 .. 9`,
`CATHandleEncoder` emits one `ZZZE` parameter from which index and click count can be read
back: clockwise parameters lie in `11 .. 509` and anticlockwise ones in `511 .. 1009`, the
magnitude is the parameter mod 10, the index is parameter/10 minus 1 (clockwise) or minus 51
(anticlockwise), and two calls that emit the same parameter have the same index and the same
click count. -/
theorem CATHandleEncoder_decodable (m : ModeFlags) (e : Nat) (c : Int)
    (hi : EncoderRemap m e ≤ 49) (hc0 : c ≠ 0) (hlo : -9 ≤ c) (hhi : c ≤ 9) :
    ∃ P : Int, CATHandleEncoder m e c = [{ Cmd := .eZZZE, Param := P }]
      ∧ (0 < c → 11 ≤ P ∧ P ≤ 509 ∧ P % 10 = c ∧ P / 10 - 1 = (EncoderRemap m e : Int))
      ∧ (c < 0 → 511 ≤ P ∧ P ≤ 1009 ∧ P % 10 = -c ∧ P / 10 - 51 = (EncoderRemap m e : Int))
      ∧ ∀ (m2 : ModeFlags) (e2 : Nat) (c2 : Int),
          EncoderRemap m2 e2 ≤ 49 → c2 ≠ 0 → -9 ≤ c2 → c2 ≤ 9 →
          CATHandleEncoder m2 e2 c2 = CATHandleEncoder m e c →
            EncoderRemap m2 e2 = EncoderRemap m e ∧ c2 = c := by
  have key : ∀ (m1 : ModeFlags) (e1 : Nat) (c1 : Int), c1 ≠ 0 → -9 ≤ c1 → c1 ≤ 9 →
      CATHandleEncoder m1 e1 c1 =
        [{ Cmd := .eZZZE,
           Param := if 0 < c1 then ((EncoderRemap m1 e1 : Int) + 1) * 10 + c1
                    else ((EncoderRemap m1 e1 : Int) + 51) * 10 + -c1 }] := by
    intro m1 e1 c1 h0 h1 h2
    rcases lt_or_gt_of_ne h0 with hneg | hpos
    · have hmin : min (-c1) 9 = -c1 := by omega
      rw [CATHandleEncoder_anticlockwise m1 e1 c1 hneg (by omega), hmin,
        if_neg (by omega)]
    · have hmin : min c1 9 = c1 := by omega
      rw [CATHandleEncoder_pos m1 e1 c1 hpos, hmin, if_pos hpos]
  refine ⟨_, key m e c hc0 hlo hhi, ?_, ?_, ?_⟩
  · intro hpos
    rw [if_pos hpos]
    omega
  · intro hneg
    rw [if_neg (by omega)]
    omega
  · intro m2 e2 c2 hi2 hc2 hlo2 hhi2 heq
    rw [key m e c hc0 hlo hhi, key m2 e2 c2 hc2 hlo2 hhi2] at heq
    have hP := congrArg CATMessage.Param (List.head_eq_of_cons_eq heq)
    simp only at hP
    split_ifs at hP <;> omega

/-- Witness for C19: index 3 with five clicks anticlockwise emits 545. -/
theorem CATHandleEncoder_decodable_witness :
    EncoderRemap ModeFlags.initial 3 ≤ 49 ∧ (-5 : Int) ≠ 0 ∧ (-9 : Int) ≤ -5 ∧ (-5 : Int) ≤ 9
      ∧ ∃ P : Int, CATHandleEncoder ModeFlags.initial 3 (-5) = [{ Cmd := .eZZZE, Param := P }]
          ∧ (-5 < (0 : Int) → 511 ≤ P ∧ P ≤ 1009 ∧ P % 10 = -(-5)
              ∧ P / 10 - 51 = (EncoderRemap ModeFlags.initial 3 : Int)) := by
  refine ⟨by decide, by decide, by decide, by decide, ?_⟩
  obtain ⟨P, h1, -, h3, -⟩ :=
    CATHandleEncoder_decodable ModeFlags.initial 3 (-5) (by decide) (by decide) (by decide)
      (by decide)
  exact ⟨P, h1, h3⟩

/-! ## Theorems: button.cpp, scan position and call traces -/

/-- Only the low 8 bits of the reading enter `AnalyseRowInput`. -/
theorem AnalyseRowInput_mod (raw : Nat) : AnalyseRowInput raw = AnalyseRowInput (raw % 256) := by
  have h0 : raw % 2 = raw % 256 % 2 := by omega
  have h1 : raw / 2 % 2 = raw % 256 / 2 % 2 := by omega
  have h2 : raw / 2 / 2 % 2 = raw % 256 / 2 / 2 % 2 := by omega
  have h3 : raw / 2 / 2 / 2 % 2 = raw % 256 / 2 / 2 / 2 % 2 := by omega
  have h4 : raw / 2 / 2 / 2 / 2 % 2 = raw % 256 / 2 / 2 / 2 / 2 % 2 := by omega
  have h5 : raw / 2 / 2 / 2 / 2 / 2 % 2 = raw % 256 / 2 / 2 / 2 / 2 / 2 % 2 := by omega
  have h6 : raw / 2 / 2 / 2 / 2 / 2 / 2 % 2 = raw % 256 / 2 / 2 / 2 / 2 / 2 / 2 % 2 := by omega
  have h7 : raw / 2 / 2 / 2 / 2 / 2 / 2 / 2 % 2 = raw % 256 / 2 / 2 / 2 / 2 / 2 / 2 / 2 % 2 := by
    omega
  simp only [AnalyseRowInput, VNUMROWS, List.range, List.range.loop, List.foldl, AnalyseRowStep,
    Nat.and_one_is_mod, Nat.shiftRight_succ, Nat.shiftRight_zero, h0, h1, h2, h3, h4, h5, h6, h7]

set_option maxRecDepth 100000 in
/-- On a byte, `AnalyseRowInput` returns 0, a row number `1 .. 8`, or `0xFF`. -/
theorem AnalyseRowInput_range_byte :
    ∀ m, m < 256 → AnalyseRowInput m ≤ 8 ∨ AnalyseRowInput m = 0xFF := by
  decide

/-- The classification of any reading is 0, a row number `1 .. 8`, or `0xFF`. -/
theorem AnalyseRowInput_range (raw : Nat) :
    AnalyseRowInput raw ≤ 8 ∨ AnalyseRowInput raw = 0xFF := by
  rw [AnalyseRowInput_mod]
  exact AnalyseRowInput_range_byte (raw % 256) (Nat.mod_lt _ (by decide))

/-- One tick preserves the position invariant. -/
theorem PosInv_step (st : Scanner) (x : Nat) (h : PosInv st) : PosInv (ButtonTick st x).1 := by
  obtain ⟨hcol, hrow⟩ := h
  obtain ⟨state, col, fr, deb, lc⟩ := st
  simp only [VNUMCOLS, VNUMROWS] at hcol hrow
  have hr := AnalyseRowInput_range x
  by_cases hd : deb = 0
  · subst hd
    cases state <;>
      simp only [ButtonTick, PosInv, VNUMCOLS, VNUMROWS, ne_eq, not_true_eq_false, if_false] <;>
      split_ifs <;> simp at hrow ⊢ <;> omega
  · rw [ButtonTick_delay _ x hd]
    exact ⟨hcol, hrow⟩

/-- The position invariant holds in every state reached from `GButtonInitialise`. -/
theorem PosInv_runTicks (s0 : Scanner) (rows : List Nat) :
    PosInv (runTicks (GButtonInitialise s0) rows) := by
  induction rows using List.reverseRecOn with
  | nil =>
    refine ⟨by simp [runTicks, GButtonInitialise, VNUMCOLS], ?_⟩
    intro h
    simp [runTicks, GButtonInitialise] at h
  | append_singleton l a ih =>
    rw [runTicks_snoc]
    exact PosInv_step _ a ih

/-- C16: in every state reached from `GButtonInitialise` the column is in `0 .. 4`; a tick
evaluated in `eIdle` with no delay armed that reads no row moves the column to
`(column+1) mod 5` and stays in `eIdle`; every other tick leaves the column unchanged. -/
theorem column_hold (s0 : Scanner) (rows : List Nat) (x : Nat) :
    (runTicks (GButtonInitialise s0) rows).GScanColumn < VNUMCOLS
      ∧ ((runTicks (GButtonInitialise s0) rows).GScanState = .eIdle
          ∧ (runTicks (GButtonInitialise s0) rows).GDebounceTickCounter = 0
          ∧ AnalyseRowInput x = 0 →
            (ButtonTick (runTicks (GButtonInitialise s0) rows) x).1.GScanColumn
                = ((runTicks (GButtonInitialise s0) rows).GScanColumn + 1) % VNUMCOLS
              ∧ (ButtonTick (runTicks (GButtonInitialise s0) rows) x).1.GScanColumn
                ≠ (runTicks (GButtonInitialise s0) rows).GScanColumn
              ∧ (ButtonTick (runTicks (GButtonInitialise s0) rows) x).1.GScanState = .eIdle)
      ∧ (¬ ((runTicks (GButtonInitialise s0) rows).GScanState = .eIdle
            ∧ (runTicks (GButtonInitialise s0) rows).GDebounceTickCounter = 0
            ∧ AnalyseRowInput x = 0) →
            (ButtonTick (runTicks (GButtonInitialise s0) rows) x).1.GScanColumn
              = (runTicks (GButtonInitialise s0) rows).GScanColumn) := by
  have hcol := (PosInv_runTicks s0 rows).1
  generalize runTicks (GButtonInitialise s0) rows = st at hcol
  obtain ⟨state, col, fr, deb, lc⟩ := st
  simp only [VNUMCOLS] at hcol ⊢
  refine ⟨hcol, ?_, ?_⟩
  · rintro ⟨hs, hd, hx⟩
    subst hs hd
    simp only [ButtonTick, ne_eq, not_true_eq_false, if_false, hx, if_true, VNUMCOLS]
    split_ifs <;> simp <;> omega
  · intro hn
    by_cases hd : deb = 0
    · subst hd
      cases state with
      | eIdle =>
        simp only [ButtonTick, ne_eq, not_true_eq_false, if_false]
        split_ifs with h1 <;> first | rfl | exact absurd ⟨rfl, rfl, h1⟩ hn
      | _ =>
        simp only [ButtonTick, ne_eq, not_true_eq_false, if_false]
        split_ifs <;> rfl
    · rw [ButtonTick_delay _ x hd]

/-- Witness for C16: the first tick after `GButtonInitialise` that reads no row moves the
column from 0 to 1. -/
theorem column_hold_witness :
    ((runTicks (GButtonInitialise Scanner.powerOn) []).GScanState = .eIdle
        ∧ (runTicks (GButtonInitialise Scanner.powerOn) []).GDebounceTickCounter = 0
        ∧ AnalyseRowInput 0xFF = 0)
      ∧ (ButtonTick (runTicks (GButtonInitialise Scanner.powerOn) []) 0xFF).1.GScanColumn
          = ((runTicks (GButtonInitialise Scanner.powerOn) []).GScanColumn + 1) % VNUMCOLS :=
  ⟨by decide,
    ((column_hold Scanner.powerOn [] 0xFF).2.1 (by decide)).1⟩

/-- With the sentinel `0xFF` as remembered row `GetScanCode` is invalid and `ButtonPressed`
makes no call. -/
theorem ButtonPressed_sentinel (s : Scanner) (l : Bool) (h : s.GFoundRow = 0xFF) :
    ButtonPressed s l = [] := by
  simp [ButtonPressed, GetScanCode, h]

/-- C17 as stated fails: with row 1 of column 0 pressed and accepted, a tick that reads rows
1 and 2 together makes the release call for report code 21. -/
theorem multi_contact_counterexample :
    ¬ (∀ (rows : List Nat) (x : Nat), AnalyseRowInput x = 0xFF →
        callsAfter (GButtonInitialise Scanner.powerOn) rows x = []) := by
  intro h
  have h1 := h (List.replicate 12 0xFE) 0xFC (by decide)
  revert h1
  decide

/-- C17 as amended: in every scanner state a tick that reads more than one row makes no
press call; it makes a call at all only when it is evaluated in `eButtonPressed` with no
delay armed, and that call is the release made by `ButtonReleased` on the way to
`eMultiPressed`. -/
theorem multi_contact_events (st : Scanner) (x : Nat) (hx : AnalyseRowInput x = 0xFF) :
    (∀ c ∈ (ButtonTick st x).2, c.IsPressed = false ∧ c.IsLongPressed = false)
      ∧ ((ButtonTick st x).2 ≠ [] →
          st.GScanState = .eButtonPressed ∧ st.GDebounceTickCounter = 0
            ∧ (ButtonTick st x).1.GScanState = .eMultiPressed
            ∧ (ButtonTick st x).2 = ButtonReleased (ButtonTick st x).1) := by
  obtain ⟨state, col, fr, deb, lc⟩ := st
  by_cases hd : deb = 0
  · subst hd
    cases state with
    | eWaitPressed =>
      by_cases hfr : fr = 255
      · subst hfr
        simp only [ButtonTick, ne_eq, not_true_eq_false, if_false, hx, if_true]
        rw [ButtonPressed_sentinel _ _ rfl]
        simp
      · have hne : ¬ (255 = fr) := fun h => hfr h.symm
        simp [ButtonTick, hx, hne]
    | eButtonPressed =>
      by_cases hfr : fr = 255
      · subst hfr
        have h255 : ¬ ((255 : Nat) = 0) := by decide
        simp only [ButtonTick, ne_eq, not_true_eq_false, if_false, hx, h255]
        split_ifs <;> simp [ButtonPressed_sentinel]
      · have hne : ¬ (255 = fr) := fun h => hfr h.symm
        have h255 : ¬ ((255 : Nat) = 0) := by decide
        simp only [ButtonTick, ne_eq, not_true_eq_false, if_false, hx, hne, h255,
          not_false_eq_true, if_true]
        refine ⟨fun c hc => mem_ButtonReleased _ c hc, fun _ => ?_⟩
        simp
    | _ =>
      have h255 : ¬ ((255 : Nat) = 0) := by decide
      simp only [ButtonTick, ne_eq, not_true_eq_false, if_false, hx, h255, if_true]
      first | (split_ifs <;> simp) | simp
  · rw [ButtonTick_delay _ x hd]
    simp

/-- Witness for C17 as amended: in the pressed state reached by holding row 1, a reading of
rows 1 and 2 together makes only calls that are releases. -/
theorem multi_contact_events_witness :
    AnalyseRowInput 0xFC = 0xFF
      ∧ ∀ c ∈ (ButtonTick (runTicks (GButtonInitialise Scanner.powerOn)
            (List.replicate 12 0xFE)) 0xFC).2,
          c.IsPressed = false ∧ c.IsLongPressed = false :=
  ⟨by decide,
    (multi_contact_events (runTicks (GButtonInitialise Scanner.powerOn) (List.replicate 12 0xFE))
      0xFC (by decide)).1⟩

/-- The calls of a tick are those of the handler it invokes, on the globals at the moment of
the invocation. -/
theorem ButtonTick_calls (s : Scanner) (x : Nat) :
    (ButtonTick s x).2 =
      match ButtonTickHandler s x with
      | none => []
      | some (s1, some l) => ButtonPressed s1 l
      | some (s1, none) => ButtonReleased s1 := by
  obtain ⟨state, col, fr, deb, lc⟩ := s
  by_cases hd : deb = 0
  · subst hd
    cases state <;>
      simp only [ButtonTick, ButtonTickHandler, ne_eq, not_true_eq_false, if_false] <;>
      first | rfl | (split_ifs <;> rfl)
  · simp [ButtonTick, ButtonTickHandler, hd]

/-- A handler is invoked only while a single press is being followed, and on the column and
remembered row of the state the tick started in. -/
theorem ButtonTickHandler_position (st : Scanner) (x : Nat) (s1 : Scanner) (h : Option Bool)
    (hinv : ButtonTickHandler st x = some (s1, h)) :
    s1.GScanColumn = st.GScanColumn ∧ s1.GFoundRow = st.GFoundRow
      ∧ (st.GScanState = .eWaitPressed ∨ st.GScanState = .eButtonPressed
          ∨ st.GScanState = .eWaitReleased) := by
  obtain ⟨state, col, fr, deb, lc⟩ := st
  by_cases hd : deb = 0
  · subst hd
    cases state with
    | eWaitPressed =>
      simp only [ButtonTickHandler, ne_eq, not_true_eq_false, if_false] at hinv
      split_ifs at hinv
      simp at hinv
      obtain ⟨rfl, -⟩ := hinv
      simp
    | eButtonPressed =>
      simp only [ButtonTickHandler, ne_eq, not_true_eq_false, if_false] at hinv
      split_ifs at hinv <;> simp at hinv <;> obtain ⟨rfl, -⟩ := hinv <;> simp
    | eWaitReleased =>
      simp only [ButtonTickHandler, ne_eq, not_true_eq_false, if_false] at hinv
      split_ifs at hinv
      simp at hinv
      obtain ⟨rfl, -⟩ := hinv
      simp
    | _ => simp [ButtonTickHandler] at hinv
  · simp [ButtonTickHandler, hd] at hinv

/-- C18: in every state reached from `GButtonInitialise`, when a tick invokes `ButtonPressed`
or `ButtonReleased` the remembered row is in `1 .. 8` and the column in `0 .. 4`, so
`GetScanCode` returns `column*8 + (row-1)`, a value in `0 .. 39` and not the invalid code
`0xFF`, and the `ReportCodeLookup` access is inside the table; the calls of the tick are
those of that handler. -/
theorem scan_code_in_table (s0 : Scanner) (rows : List Nat) (x : Nat) (s1 : Scanner)
    (h : Option Bool)
    (hinv : ButtonTickHandler (runTicks (GButtonInitialise s0) rows) x = some (s1, h)) :
    (1 ≤ s1.GFoundRow ∧ s1.GFoundRow ≤ 8) ∧ s1.GScanColumn < 5
      ∧ GetScanCode s1 = s1.GScanColumn * 8 + (s1.GFoundRow - 1)
      ∧ GetScanCode s1 < 40 ∧ GetScanCode s1 ≠ 0xFF
      ∧ GetScanCode s1 < ReportCodeLookup.length
      ∧ (ButtonTick (runTicks (GButtonInitialise s0) rows) x).2
          = Option.elim h (ButtonReleased s1) (fun l => ButtonPressed s1 l) := by
  obtain ⟨hcol, hrow⟩ := PosInv_runTicks s0 rows
  obtain ⟨ec, er, hst⟩ := ButtonTickHandler_position _ x s1 h hinv
  obtain ⟨h1, h8⟩ := hrow hst
  simp only [VNUMCOLS, VNUMROWS] at hcol h8
  rw [← ec] at hcol
  rw [← er] at h1 h8
  have hsc := GetScanCode_eq s1 h1 h8 (by omega)
  have hlen : ReportCodeLookup.length = 40 := by decide
  refine ⟨⟨h1, h8⟩, hcol, hsc, by omega, by omega, by omega, ?_⟩
  rw [ButtonTick_calls, hinv]
  cases h <;> rfl

/-- Witness for C18: the tick that accepts row 1 of column 0 invokes `ButtonPressed(false)`
with scan code 0. -/
theorem scan_code_in_table_witness :
    ButtonTickHandler (runTicks (GButtonInitialise Scanner.powerOn) (List.replicate 11 0xFE)) 0xFE
        = some ({ GScanState := .eButtonPressed, GScanColumn := 0, GFoundRow := 1,
                  GDebounceTickCounter := 0, GLongPressCounter := 0 }, some false)
      ∧ GetScanCode { GScanState := .eButtonPressed, GScanColumn := 0, GFoundRow := 1,
                      GDebounceTickCounter := 0, GLongPressCounter := 0 } < 40 :=
  ⟨by decide,
    (scan_code_in_table Scanner.powerOn (List.replicate 11 0xFE) 0xFE
      { GScanState := .eButtonPressed, GScanColumn := 0, GFoundRow := 1,
        GDebounceTickCounter := 0, GLongPressCounter := 0 } (some false) (by decide)).2.2.2.1⟩

set_option maxRecDepth 100000 in
/-- C20 at the failing input: row 1 of column 0 is pressed and accepted, released, and
during the release debounce row 2 is read; `eWaitReleased` then moves to `eMultiPressed`
without calling `ButtonReleased`, and after the lock-out has cleared the next press of row 1
is reported. The whole trace is two short-press calls for report code 21 and no release. -/
theorem press_without_release :
    callTrace (GButtonInitialise Scanner.powerOn)
        (List.replicate 12 0xFE ++ List.replicate 11 0xFF ++ [0xFD] ++ List.replicate 32 0xFF
          ++ List.replicate 12 0xFE)
      = [{ Button := 21, IsPressed := true, IsLongPressed := false },
         { Button := 21, IsPressed := true, IsLongPressed := false }] := by
  decide

end Andromeda
